import Mathlib

/-!
Verification development for the hyprside/shift compositor.

This file gives a shallow embedding of the parts of the repository that the
checked properties talk about:

* the wire-frame codec (crate tab-protocol, file message_frame.rs, and the
  datagram receive logic of tab-server, file connection.rs);
* the rendering layer command handling (crate shift, file
  rendering_layer/mod.rs);
* the control plane (crate shift, file server_layer/server.rs).

Modelling conventions:

* Rust strings and byte buffers are modelled as lists of characters.  This is
  faithful for everything the codec does: the only byte the framing logic
  scans for is the line feed 0x0A, which in UTF-8 occurs exactly as the
  one-byte encoding of the character LF, so scanning characters and scanning
  bytes find the same positions, and String from_utf8 becomes the identity.
* Opaque random identifiers (SessionId, MonitorId, ClientId, Token) are
  modelled as natural numbers.
* File descriptors are modelled by their raw numbers (Int); DMA-BUF payloads
  and GPU textures carry no information the checked properties depend on and
  are reduced to presence in a key set.
* Hash maps are modelled as association lists where insertion replaces every
  earlier binding of the key; hash maps are unordered, and no handler of the
  modelled code depends on iteration order in a way a claim observes.
* Channel sends: the control plane checks the result of at most one send per
  handled message (the others are logged and ignored).  That single result is
  an explicit boolean input of each handler, so the failure branches
  (disconnecting the client, skipping the pending push) are part of the model.
-/

namespace Shift

/-! ## Association-list maps (model of std HashMap) -/

def aeraseAll [DecidableEq κ] (m : List (κ × α)) (k : κ) : List (κ × α) :=
  m.filter (fun e => decide (e.1 ≠ k))

def ainsert [DecidableEq κ] (m : List (κ × α)) (k : κ) (v : α) : List (κ × α) :=
  (k, v) :: aeraseAll m k

def alookup [DecidableEq κ] (m : List (κ × α)) (k : κ) : Option α :=
  match m with
  | [] => none
  | (k', v) :: rest => if k' = k then some v else alookup rest k

/-! ## Rust iterator and vector helpers -/

/-- Model of Rust Iterator position: index of the first element satisfying the
predicate. -/
def position (p : α → Bool) : List α → Option Nat
  | [] => none
  | x :: xs => if p x then some 0 else (position p xs).map (· + 1)

/-- Model of the source pattern iter().position(pred) followed by remove(pos):
returns the first element satisfying the predicate together with the list with
that one occurrence removed. -/
def extractFirst (p : α → Bool) : List α → Option (α × List α)
  | [] => none
  | x :: xs =>
    if p x then some (x, xs)
    else (extractFirst p xs).map (fun r => (r.1, x :: r.2))

/-! ## Wire protocol codec (tab-protocol, message_frame.rs) -/

/-- Unicode White_Space property, the predicate behind Rust str trim_end. -/
def rust_is_whitespace (c : Char) : Bool :=
  let n := c.toNat
  n = 9 || n = 10 || n = 11 || n = 12 || n = 13 || n = 32 ||
    n = 0x85 || n = 0xA0 || n = 0x1680 || (0x2000 ≤ n && n ≤ 0x200A) ||
    n = 0x2028 || n = 0x2029 || n = 0x202F || n = 0x205F || n = 0x3000

/-- Model of Rust str trim_end: remove trailing whitespace characters. -/
def trim_end (s : List Char) : List Char :=
  (s.reverse.dropWhile rust_is_whitespace).reverse

/-- Model of trim_end_matches applied with the newline character: remove
trailing newline characters. -/
def trim_end_matches_nl (s : List Char) : List Char :=
  (s.reverse.dropWhile (fun c => decide (c = '\n'))).reverse

/-- The four-byte sentinel meaning "no payload". -/
def nul4 : List Char := ['\x00', '\x00', '\x00', '\x00']

/-- Raw framed Tab message: header line + payload line plus optional FDs
(struct TabMessageFrame).  Strings are modelled as character lists, raw file
descriptors by their numbers. -/
structure TabMessageFrame where
  header : List Char
  payload : Option (List Char)
  fds : List Int
deriving DecidableEq, Repr

namespace TabMessageFrame

/-- Model of TabMessageFrame serialize: the pair of the header line and the
payload line (an absent payload is encoded as the sentinel). -/
def serialize (f : TabMessageFrame) : List Char × List Char :=
  (trim_end f.header,
   match f.payload with
   | some p => trim_end_matches_nl p
   | none => nul4)

/-- The byte sequence assembled by encode_and_send: header line, LF, payload
line, LF. -/
def encoded_bytes (f : TabMessageFrame) : List Char :=
  (serialize f).1 ++ '\n' :: ((serialize f).2 ++ ['\n'])

/-- Model of TabMessageFrame from_lines.  The UTF-8 decoding steps are the
identity in the character-list model (they can only fail on invalid byte
sequences, which character lists cannot represent). -/
def from_lines (header_bytes payload_bytes : List Char) (fds : List Int) :
    TabMessageFrame :=
  { header := header_bytes,
    payload := if payload_bytes = nul4 then none else some payload_bytes,
    fds := fds }

/-- Model of TabMessageFrame parse_from_bytes: find the first two line feeds,
split into header and payload line, and report how many bytes one frame
consumed.  Returns none when no complete frame is present (the source returns
Ok(None)); the source's error case (invalid UTF-8) is unrepresentable here. -/
def parse_from_bytes (bytes : List Char) (fds : List Int) :
    Option (TabMessageFrame × Nat) :=
  match position (fun b => decide (b = '\n')) bytes with
  | none => none
  | some first_nl =>
    match position (fun b => decide (b = '\n')) (bytes.drop (first_nl + 1)) with
    | none => none
    | some second_rel =>
      let second_nl := first_nl + 1 + second_rel
      let header_bytes := bytes.take first_nl
      let payload_bytes := (bytes.drop (first_nl + 1)).take second_rel
      some (from_lines header_bytes payload_bytes fds, second_nl + 1)

end TabMessageFrame

/-- Well-formedness of a frame as claim C5 words it: the header line contains
no LF, and the payload is either absent or a line that contains no LF and is
not the four-byte sentinel. -/
def claim_well_formed (f : TabMessageFrame) : Bool :=
  decide ('\n' ∉ f.header) &&
    (match f.payload with
     | some p => decide ('\n' ∉ p) && decide (p ≠ nul4)
     | none => true)

/-- Protocol level errors (enum ProtocolError), restricted to the variants the
modelled paths can produce. -/
inductive ProtocolError where
  | unexpectedEof
  | trailingData
  | truncated
  | wouldBlock
deriving DecidableEq, Repr

/-- Model of TabMessageFrameReader process_pending: repeatedly parse complete
frames out of the pending byte buffer; each parsed frame takes every pending
FD, and the consumed bytes are drained.  Returns the remaining bytes, the
remaining FDs and the frames made ready. -/
def process_pending (pending_bytes : List Char) (pending_fds : List Int)
    (ready : List TabMessageFrame) :
    List Char × List Int × List TabMessageFrame :=
  if hne : pending_bytes = [] then (pending_bytes, pending_fds, ready)
  else
    match hp : TabMessageFrame.parse_from_bytes pending_bytes pending_fds with
    | some (frame, used) =>
      process_pending (pending_bytes.drop used) [] (ready ++ [frame])
    | none => (pending_bytes, pending_fds, ready)
termination_by pending_bytes.length
decreasing_by
  have hu : 0 < used := by
    unfold TabMessageFrame.parse_from_bytes at hp
    cases h1 : position (fun b => decide (b = '\n')) pending_bytes with
    | none => simp [h1] at hp
    | some first_nl =>
      simp only [h1] at hp
      cases h2 : position (fun b => decide (b = '\n')) (pending_bytes.drop (first_nl + 1)) with
      | none => simp [h2] at hp
      | some second_rel =>
        simp only [h2, Option.some.injEq, Prod.mk.injEq] at hp
        omega
  have hlen : pending_bytes.length ≠ 0 := by
    intro h0
    exact hne (List.length_eq_zero.mp h0)
  simp only [List.length_drop]
  omega

/-- Model of TabConnection recv_frame (tab-server, connection.rs), after the
datagram has been received: parse one frame from the received data; when bytes
remain after the frame, fail with TrailingData if the frame carried FDs,
otherwise append the remainder to the connection buffer.  Returns the frame
and the new buffer contents. -/
def recv_frame_process (data : List Char) (fds : List Int)
    (buffer : List Char) :
    Except ProtocolError (TabMessageFrame × List Char) :=
  if data = [] then .error .unexpectedEof
  else
    match TabMessageFrame.parse_from_bytes data fds with
    | none => .error .unexpectedEof
    | some (frame, consumed) =>
      if consumed < data.length then
        if frame.fds ≠ [] then .error .trailingData
        else .ok (frame, buffer ++ data.drop consumed)
      else .ok (frame, buffer)

/-! ## Shared identifiers and data model -/

abbrev SessionId := Nat
abbrev MonitorId := Nat
abbrev ClientId := Nat
abbrev Token := Nat

/-- Buffer slot index (tab-protocol BufferIndex). -/
inductive BufferIndex where
  | zero
  | one
deriving DecidableEq, Repr

/-- Slot ownership recorded by the control plane (enum BufferOwner in
server.rs; Shift is the compositor side). -/
inductive BufferOwner where
  | client
  | shift
deriving DecidableEq, Repr

/-- Modelled from the spec: session role (the sessions module of the shift
crate is not among the provided sources). -/
inductive Role where
  | admin
  | normal
deriving DecidableEq, Repr

/-- Session role on the wire (tab-protocol SessionRole). -/
inductive SessionRole where
  | admin
  | session
deriving DecidableEq, Repr

/-- Modelled from the spec: session lifecycle Pending, Loading, Occupied,
Consumed. -/
inductive SessionLifecycle where
  | pending
  | loading
  | occupied
  | consumed
deriving DecidableEq, Repr

/-- Modelled from the spec: a session record with identity, role, display
name and lifecycle (module sessions of the shift crate, absent from the
provided sources). -/
structure Session where
  id : SessionId
  role : Role
  display_name : Option String
  lifecycle : SessionLifecycle
deriving DecidableEq, Repr

/-- Modelled from the spec: a pending session, created when an admin mints a
token. -/
structure PendingSession where
  id : SessionId
  role : Role
  display_name : Option String
deriving DecidableEq, Repr

/-- Modelled from the spec: promotion Pending to Loading on successful AUTH,
keeping identity, role and display name. -/
def PendingSession.promote (p : PendingSession) : Session :=
  { id := p.id, role := p.role, display_name := p.display_name,
    lifecycle := .loading }

/-- Monitor attributes (module monitor of the shift crate, absent from the
provided sources; fields as built by get_server_layer_monitor in the
rendering layer and as listed in the spec). -/
structure Monitor where
  id : MonitorId
  width : Int
  height : Int
  refresh_rate : Int
  name : String
deriving DecidableEq, Repr

/-- Modelled from the spec: AUTH failure reasons (module auth::error of the
shift crate, absent from the provided sources; the only reason the server
sends is not_found). -/
inductive AuthError where
  | not_found
deriving DecidableEq, Repr

/-- Payload of framebuffer_link (tab-protocol FramebufferLinkPayload).  The
monitor id travels as a string and is parsed with str parse inside the
server; the model carries the parse result directly (none models a string
that does not parse as a MonitorId). -/
structure FramebufferLinkPayload where
  monitor_id : Option MonitorId
  width : Int
  height : Int
  stride : Int
  offset : Int
  fourcc : Int
deriving DecidableEq, Repr

/-- Payload of session_create (tab-protocol SessionCreatePayload). -/
structure SessionCreateReq where
  role : SessionRole
  display_name : Option String
deriving DecidableEq, Repr

/-- Client-to-server messages (comms/client2server.rs).  The create_session
variant additionally carries the token and the session id that
PendingSession::new draws from the random generator in the source; the
DMA-BUF and fence FDs are reduced to presence. -/
inductive C2SMsg where
  | shutdown
  | auth (token : Token)
  | create_session (req : SessionCreateReq) (fresh_token : Token) (fresh_id : SessionId)
  | buffer_request (monitor_id : MonitorId) (buffer : BufferIndex) (acquire_fence : Bool)
  | framebuffer_link (payload : FramebufferLinkPayload)
deriving DecidableEq, Repr

/-- A buffer release record (comms/server2client.rs BufferRelease). -/
structure BufferRelease where
  monitor_id : MonitorId
  buffer : BufferIndex
deriving DecidableEq, Repr

/-- Server-to-client messages (comms/server2client.rs S2CMsg). -/
inductive S2CMsg where
  | bind_to_session (session : Session)
  | auth_error (reason : AuthError)
  | session_created (token : Token) (session : PendingSession)
  | error (code : String) (detail : Option String) (shutdown : Bool)
  | buffer_release (buffers : List BufferRelease)
  | buffer_request_ack (monitor_id : MonitorId) (buffer : BufferIndex)
  | monitor_added (monitor : Monitor)
  | monitor_removed (monitor_id : MonitorId) (name : String)
deriving DecidableEq, Repr

/-- Server-to-renderer commands (comms/server2render.rs RenderCmd); FDs
reduced to presence. -/
inductive RenderCmd where
  | shutdown
  | framebuffer_link (payload : FramebufferLinkPayload) (session_id : SessionId)
  | set_active_session (session_id : Option SessionId)
  | session_removed (session_id : SessionId)
  | swap_buffers (monitor_id : MonitorId) (buffer : BufferIndex)
      (session_id : SessionId) (acquire_fence : Bool)
deriving DecidableEq, Repr

/-- Renderer-to-server events (comms/render2server.rs RenderEvt). -/
inductive RenderEvt where
  | started (monitors : List Monitor)
  | monitor_online (monitor : Monitor)
  | monitor_offline (monitor_id : MonitorId)
  | fatal_error (reason : String)
  | page_flip (monitors : List MonitorId)
  | buffer_request_ack (session_id : SessionId) (monitor_id : MonitorId)
      (buffer : BufferIndex)
  | buffer_request_rejected (session_id : SessionId) (monitor_id : MonitorId)
      (buffer : BufferIndex) (reason : String)
deriving DecidableEq, Repr

/-! ## Rendering layer (shift, rendering_layer/mod.rs) -/

/-- Per monitor and session surface state (struct MonitorSurfaceState); the
source BufferSlot and the wire BufferIndex are isomorphic two-element
enumerations, so one type stands for both. -/
structure MonitorSurfaceState where
  current_buffer : Option BufferIndex := none
  pending_buffer : Option BufferIndex := none
deriving DecidableEq, Repr

/-- Key of an imported texture (struct SlotKey). -/
structure SlotKey where
  monitor_id : MonitorId
  session_id : SessionId
  buffer : BufferIndex
deriving DecidableEq, Repr

/-- Fence waiter completion events (enum FenceEvent). -/
inductive FenceEvent where
  | signaled (key : SlotKey)
  | failed (key : SlotKey) (reason : String)
deriving DecidableEq, Repr

/-- Rendering layer state relevant to command handling.  GPU textures are
modelled by the presence of their key in slots; a fence waiter task by the
presence of its key in fence_waiters. -/
structure RenderingLayer where
  known_monitors : List (MonitorId × Monitor)
  monitor_state : List ((MonitorId × SessionId) × MonitorSurfaceState)
  slots : List SlotKey
  fence_waiters : List SlotKey
  current_session : Option SessionId
deriving DecidableEq, Repr

/-- Insertion into a key set modelling a hash map keyed by the whole value. -/
def insert_key (l : List SlotKey) (k : SlotKey) : List SlotKey :=
  k :: l.filter (fun x => decide (x ≠ k))

namespace RenderingLayer

/-- Model of spawn_acquire_fence_waiter on the waiter key set: abort and drop
a previous waiter for the key and record the new one. -/
def spawn_acquire_fence_waiter (l : List SlotKey) (key : SlotKey) : List SlotKey :=
  insert_key l key

/-- Model of cleanup_session_slots. -/
def cleanup_session_slots (r : RenderingLayer) (session_id : SessionId) :
    RenderingLayer :=
  { r with
    slots := r.slots.filter (fun k => decide (k.session_id ≠ session_id)),
    monitor_state := r.monitor_state.filter (fun e => decide (e.1.2 ≠ session_id)),
    fence_waiters := r.fence_waiters.filter (fun k => decide (k.session_id ≠ session_id)) }

/-- Model of import_framebuffers: when the monitor id parses and the monitor
is known, store textures for both slots.  The success path of the EGL import
is modelled; an import failure only skips individual slots and no checked
claim depends on it. -/
def import_framebuffers (r : RenderingLayer) (payload : FramebufferLinkPayload)
    (session_id : SessionId) : RenderingLayer :=
  match payload.monitor_id with
  | none => r
  | some monitor_id =>
    if (alookup r.known_monitors monitor_id).isSome then
      let slots' :=
        insert_key (insert_key r.slots ⟨monitor_id, session_id, .zero⟩)
          ⟨monitor_id, session_id, .one⟩
      { r with slots := slots' }
    else r

/-- Model of handle_command; the returned list holds the events emitted to the
control plane.  The boolean telling the run loop to keep going is omitted:
only shutdown clears it. -/
def handle_command (r : RenderingLayer) (cmd : RenderCmd) :
    RenderingLayer × List RenderEvt :=
  match cmd with
  | .shutdown => (r, [])
  | .framebuffer_link payload session_id =>
    (import_framebuffers r payload session_id, [])
  | .set_active_session session_id =>
    ({ r with current_session := session_id }, [])
  | .session_removed session_id =>
    let r := cleanup_session_slots r session_id
    (if r.current_session = some session_id then { r with current_session := none }
     else r, [])
  | .swap_buffers monitor_id buffer session_id acquire_fence =>
    let slot_key : SlotKey := ⟨monitor_id, session_id, buffer⟩
    let monitor_known := (alookup r.known_monitors monitor_id).isSome
    let slot_known := decide (slot_key ∈ r.slots)
    if !monitor_known || !slot_known then
      (r, [.buffer_request_rejected session_id monitor_id buffer
            (if !monitor_known then "unknown_monitor" else "unlinked_buffer")])
    else
      let fence_waiters :=
        if acquire_fence then spawn_acquire_fence_waiter r.fence_waiters slot_key
        else r.fence_waiters.filter (fun k => decide (k ≠ slot_key))
      let st := (alookup r.monitor_state (monitor_id, session_id)).getD {}
      let st := { st with pending_buffer := some buffer }
      let st :=
        if !acquire_fence then
          { st with current_buffer := some buffer, pending_buffer := none }
        else st
      ({ r with fence_waiters := fence_waiters,
                monitor_state := ainsert r.monitor_state (monitor_id, session_id) st },
       [.buffer_request_ack session_id monitor_id buffer])

/-- Shared body of both arms of handle_fence_event: drop the waiter and, when
the slot is still the pending buffer, promote it to the current buffer.  The
signaled and failed arms perform the same state change (a failed fence wait
promotes anyway, with a warning). -/
def promote_pending (r : RenderingLayer) (key : SlotKey) : RenderingLayer :=
  let r := { r with fence_waiters := r.fence_waiters.filter (fun k => decide (k ≠ key)) }
  match alookup r.monitor_state (key.monitor_id, key.session_id) with
  | none => r
  | some st =>
    if st.pending_buffer = some key.buffer then
      let st' := { st with current_buffer := some key.buffer, pending_buffer := none }
      { r with monitor_state := ainsert r.monitor_state (key.monitor_id, key.session_id) st' }
    else r

/-- Model of handle_fence_event. -/
def handle_fence_event (r : RenderingLayer) (event : FenceEvent) : RenderingLayer :=
  match event with
  | .signaled key => promote_pending r key
  | .failed key _ => promote_pending r key

end RenderingLayer

/-! ## Control plane (shift, server_layer/server.rs) -/

/-- An entry of waiting_flip (struct PendingFlip). -/
structure PendingFlip where
  session_id : SessionId
  monitor_id : MonitorId
  buffer : BufferIndex
deriving DecidableEq, Repr

/-- An in-flight buffer request (struct PendingBufferRequest). -/
structure PendingBufferRequest where
  client_id : ClientId
  session_id : SessionId
  monitor_id : MonitorId
  buffer : BufferIndex
deriving DecidableEq, Repr

/-- Control plane view of a connected client (client_layer ClientView reduced
to its authenticated session binding; the channel endpoints and the join
handle carry no state a checked claim observes). -/
structure ClientView where
  session_id : Option SessionId
deriving DecidableEq, Repr

/-- The control plane state (struct ShiftServer; the listener handle is
omitted). -/
structure ShiftServer where
  current_session : Option SessionId
  pending_sessions : List (Token × PendingSession)
  active_sessions : List (SessionId × Session)
  connected_clients : List (ClientId × ClientView)
  monitors : List (MonitorId × Monitor)
  pending_buffer_requests : List PendingBufferRequest
  waiting_flip : List PendingFlip
  front_buffers : List ((SessionId × MonitorId) × BufferIndex)
  buffer_ownership : List ((SessionId × MonitorId × BufferIndex) × BufferOwner)
  swap_buffers_received : Nat
  frame_done_emitted : Nat
deriving DecidableEq, Repr

/-- Messages and commands produced while handling one input.  A message is
recorded when the source performs the channel send; for the single send per
handler whose result the source checks, the message is recorded only when
that send succeeded. -/
structure StepOut where
  to_clients : List (ClientId × S2CMsg)
  to_render : List RenderCmd
deriving DecidableEq, Repr

def noOut : StepOut := ⟨[], []⟩

/-- Saturating addition on a 64-bit counter. -/
def saturating_add_u64 (x y : Nat) : Nat := min (x + y) (2 ^ 64 - 1)

namespace ShiftServer

/-- State produced by bind: empty tables, no active session. -/
def initial : ShiftServer :=
  { current_session := none, pending_sessions := [], active_sessions := [],
    connected_clients := [], monitors := [], pending_buffer_requests := [],
    waiting_flip := [], front_buffers := [], buffer_ownership := [],
    swap_buffers_received := 0, frame_done_emitted := 0 }

/-- Model of add_initial_session: mint an admin pending session.  The token
and session id are random in the source and inputs here. -/
def add_initial_session (s : ShiftServer) (token : Token) (fresh_id : SessionId) :
    ShiftServer :=
  { s with pending_sessions :=
      ainsert s.pending_sessions token ⟨fresh_id, .admin, some "Admin"⟩ }

/-- Model of handle_accept: register the connection with no bound session (the
hello frame travels on the socket, outside the modelled channels). -/
def handle_accept (s : ShiftServer) (client_id : ClientId) : ShiftServer :=
  { s with connected_clients := ainsert s.connected_clients client_id ⟨none⟩ }

/-- Model of update_active_session. -/
def update_active_session (s : ShiftServer) (next : Option SessionId) :
    ShiftServer × StepOut :=
  ({ s with current_session := next }, ⟨[], [.set_active_session next]⟩)

/-- Model of disconnect_client: drop the connection and purge every record of
its bound session, notify the renderer, and clear the active session if it
was the removed one. -/
def disconnect_client (s : ShiftServer) (client_id : ClientId) :
    ShiftServer × StepOut :=
  match alookup s.connected_clients client_id with
  | none => (s, noOut)
  | some client =>
    let s := { s with connected_clients := aeraseAll s.connected_clients client_id }
    match client.session_id with
    | none => (s, noOut)
    | some session_id =>
      let s := { s with
        active_sessions := aeraseAll s.active_sessions session_id,
        pending_buffer_requests := s.pending_buffer_requests.filter
          (fun p => decide (p.client_id ≠ client_id ∧ p.session_id ≠ session_id)),
        waiting_flip := s.waiting_flip.filter (fun p => decide (p.session_id ≠ session_id)),
        front_buffers := s.front_buffers.filter (fun e => decide (e.1.1 ≠ session_id)),
        buffer_ownership := s.buffer_ownership.filter (fun e => decide (e.1.1 ≠ session_id)) }
      if s.current_session = some session_id then
        let r := update_active_session s none
        (r.1, ⟨[], [.session_removed session_id] ++ r.2.to_render⟩)
      else
        (s, ⟨[], [.session_removed session_id]⟩)

/-- Model of the Auth arm of handle_client_message.  The boolean is the result
of the notify_auth_success send (the auth_error send result is ignored by the
source). -/
def handle_auth (s : ShiftServer) (client_id : ClientId) (token : Token) (ok : Bool) :
    ShiftServer × StepOut :=
  match alookup s.pending_sessions token with
  | none =>
    match alookup s.connected_clients client_id with
    | none => (s, noOut)
    | some _ => (s, ⟨[(client_id, .auth_error .not_found)], []⟩)
  | some pending_session =>
    let s := { s with pending_sessions := aeraseAll s.pending_sessions token }
    let session := pending_session.promote
    match alookup s.connected_clients client_id with
    | none => (s, noOut)
    | some client =>
      let clients' :=
        ainsert s.connected_clients client_id { client with session_id := some session.id }
      let s := { s with connected_clients := clients' }
      if ok then
        let s := { s with active_sessions := ainsert s.active_sessions session.id session }
        if session.role = .admin ∧ s.current_session = none then
          let r := update_active_session s (some session.id)
          (r.1, ⟨[(client_id, .bind_to_session session)], r.2.to_render⟩)
        else
          (s, ⟨[(client_id, .bind_to_session session)], []⟩)
      else
        disconnect_client s client_id

/-- Model of the CreateSession arm of handle_client_message; the boolean is
the result of the notify_session_created send. -/
def handle_create_session (s : ShiftServer) (client_id : ClientId)
    (req : SessionCreateReq) (fresh_token : Token) (fresh_id : SessionId)
    (ok : Bool) : ShiftServer × StepOut :=
  match alookup s.connected_clients client_id with
  | none => (s, noOut)
  | some client =>
    match client.session_id.bind (fun sid => alookup s.active_sessions sid) with
    | none => (s, ⟨[(client_id, .error "forbidden" none false)], []⟩)
    | some client_session =>
      if client_session.role ≠ .admin then
        (s, ⟨[(client_id, .error "forbidden" none false)], []⟩)
      else
        let pending_session : PendingSession :=
          ⟨fresh_id,
           match req.role with
           | .admin => Role.admin
           | .session => Role.normal,
           req.display_name⟩
        let s := { s with
          pending_sessions := ainsert s.pending_sessions fresh_token pending_session }
        if ok then
          (s, ⟨[(client_id, .session_created fresh_token pending_session)], []⟩)
        else
          disconnect_client s client_id

/-- Model of the BufferRequest arm of handle_client_message; the boolean is
the result of the render_commands send of the SwapBuffers command. -/
def handle_buffer_request (s : ShiftServer) (client_id : ClientId)
    (monitor_id : MonitorId) (buffer : BufferIndex) (acquire_fence : Bool)
    (ok : Bool) : ShiftServer × StepOut :=
  match alookup s.connected_clients client_id with
  | none => (s, noOut)
  | some client =>
    match client.session_id.bind (fun sid => alookup s.active_sessions sid) with
    | none => (s, ⟨[(client_id, .error "forbidden" none false)], []⟩)
    | some client_session =>
      let owner_key := (client_session.id, monitor_id, buffer)
      let current_owner := (alookup s.buffer_ownership owner_key).getD .client
      if current_owner ≠ .client then
        (s, ⟨[(client_id, .error "ownership_violation"
                (some "requested buffer is not client-owned") false)], []⟩)
      else if s.pending_buffer_requests.any (fun p =>
          decide (p.session_id = client_session.id ∧ p.monitor_id = monitor_id ∧
            p.buffer = buffer)) then
        (s, ⟨[(client_id, .error "buffer_request_inflight"
                (some "buffer request already pending") false)], []⟩)
      else if ok then
        ({ s with pending_buffer_requests := s.pending_buffer_requests ++
            [⟨client_id, client_session.id, monitor_id, buffer⟩] },
         ⟨[], [.swap_buffers monitor_id buffer client_session.id acquire_fence]⟩)
      else
        (s, ⟨[(client_id, .error "render_unavailable"
                (some "renderer unavailable") true)], []⟩)

/-- Model of the FramebufferLink arm of handle_client_message; the boolean is
the result of the render_commands send of the FramebufferLink command. -/
def handle_framebuffer_link (s : ShiftServer) (client_id : ClientId)
    (payload : FramebufferLinkPayload) (ok : Bool) : ShiftServer × StepOut :=
  match alookup s.connected_clients client_id with
  | none => (s, noOut)
  | some client =>
    match client.session_id with
    | none => (s, ⟨[(client_id, .error "forbidden" none false)], []⟩)
    | some session_id =>
      if ok then
        let out : StepOut := ⟨[], [.framebuffer_link payload session_id]⟩
        match payload.monitor_id with
        | none => (s, out)
        | some monitor_id =>
          ({ s with
             waiting_flip := s.waiting_flip.filter (fun p =>
               decide (¬(p.session_id = session_id ∧ p.monitor_id = monitor_id))),
             pending_buffer_requests := s.pending_buffer_requests.filter (fun p =>
               decide (¬(p.session_id = session_id ∧ p.monitor_id = monitor_id))),
             front_buffers := aeraseAll s.front_buffers (session_id, monitor_id),
             buffer_ownership :=
               ainsert (ainsert s.buffer_ownership (session_id, monitor_id, .zero) .client)
                 (session_id, monitor_id, .one) .client },
           out)
      else
        (s, ⟨[(client_id, .error "render_unavailable"
                (some "renderer unavailable") true)], []⟩)

/-- Model of handle_client_message. -/
def handle_client_message (s : ShiftServer) (client_id : ClientId) (msg : C2SMsg)
    (ok : Bool) : ShiftServer × StepOut :=
  match msg with
  | .shutdown => disconnect_client s client_id
  | .auth token => handle_auth s client_id token ok
  | .create_session req fresh_token fresh_id =>
    handle_create_session s client_id req fresh_token fresh_id ok
  | .buffer_request monitor_id buffer acquire_fence =>
    handle_buffer_request s client_id monitor_id buffer acquire_fence ok
  | .framebuffer_link payload => handle_framebuffer_link s client_id payload ok

/-- Model of broadcast_monitor_added. -/
def broadcast_monitor_added (s : ShiftServer) (monitor : Monitor) :
    List (ClientId × S2CMsg) :=
  s.connected_clients.map (fun e => (e.1, .monitor_added monitor))

/-- Model of broadcast_monitor_removed. -/
def broadcast_monitor_removed (s : ShiftServer) (monitor : Monitor) :
    List (ClientId × S2CMsg) :=
  s.connected_clients.map (fun e => (e.1, .monitor_removed monitor.id monitor.name))

/-- Model of the MonitorOffline arm of handle_render_event. -/
def handle_monitor_offline (s : ShiftServer) (monitor_id : MonitorId) :
    ShiftServer × StepOut :=
  let msgs :=
    match alookup s.monitors monitor_id with
    | some monitor => broadcast_monitor_removed s monitor
    | none => []
  let s := { s with monitors := aeraseAll s.monitors monitor_id }
  ({ s with
     waiting_flip := s.waiting_flip.filter (fun p => decide (p.monitor_id ≠ monitor_id)),
     pending_buffer_requests := s.pending_buffer_requests.filter
       (fun p => decide (p.monitor_id ≠ monitor_id)),
     front_buffers := s.front_buffers.filter (fun e => decide (e.1.2 ≠ monitor_id)),
     buffer_ownership := s.buffer_ownership.filter
       (fun e => decide (e.1.2.1 ≠ monitor_id)) },
   ⟨msgs, []⟩)

/-- Model of the BufferRequestAck arm of handle_render_event; the boolean is
the result of the notify_buffer_request_ack send. -/
def handle_buffer_request_ack (s : ShiftServer) (session_id : SessionId)
    (monitor_id : MonitorId) (buffer : BufferIndex) (ok : Bool) :
    ShiftServer × StepOut :=
  match extractFirst (fun p =>
      decide (p.session_id = session_id ∧ p.monitor_id = monitor_id ∧
        p.buffer = buffer)) s.pending_buffer_requests with
  | none => (s, noOut)
  | some (pending, rest) =>
    let s := { s with
      pending_buffer_requests := rest,
      buffer_ownership := ainsert s.buffer_ownership (session_id, monitor_id, buffer) .shift,
      waiting_flip := s.waiting_flip ++ [⟨session_id, monitor_id, buffer⟩],
      swap_buffers_received := saturating_add_u64 s.swap_buffers_received 1 }
    match alookup s.connected_clients pending.client_id with
    | none => (s, noOut)
    | some _ =>
      if ok then
        (s, ⟨[(pending.client_id, .buffer_request_ack monitor_id buffer)], []⟩)
      else
        disconnect_client s pending.client_id

/-- Model of the BufferRequestRejected arm of handle_render_event (the error
send result is ignored by the source). -/
def handle_buffer_request_rejected (s : ShiftServer) (session_id : SessionId)
    (monitor_id : MonitorId) (buffer : BufferIndex) (reason : String) :
    ShiftServer × StepOut :=
  match extractFirst (fun p =>
      decide (p.session_id = session_id ∧ p.monitor_id = monitor_id ∧
        p.buffer = buffer)) s.pending_buffer_requests with
  | none => (s, noOut)
  | some (pending, rest) =>
    let s := { s with pending_buffer_requests := rest }
    match alookup s.connected_clients pending.client_id with
    | none => (s, noOut)
    | some _ =>
      (s, ⟨[(pending.client_id, .error "buffer_request_rejected" (some reason) false)], []⟩)

/-- One iteration of the page flip loop: acknowledge one pending swap for the
monitor and release the previous front buffer. -/
def page_flip_step (active_session : SessionId)
    (acc : ShiftServer × List BufferRelease) (monitor : MonitorId) :
    ShiftServer × List BufferRelease :=
  let s := acc.1
  match extractFirst (fun p =>
      decide (p.session_id = active_session ∧ p.monitor_id = monitor)) s.waiting_flip with
  | none => acc
  | some (pending, rest) =>
    let key := (active_session, monitor)
    let old := alookup s.front_buffers key
    let s := { s with waiting_flip := rest,
                      front_buffers := ainsert s.front_buffers key pending.buffer }
    match old with
    | none => (s, acc.2)
    | some released =>
      ({ s with buffer_ownership :=
          ainsert s.buffer_ownership (active_session, monitor, released) .client },
       acc.2 ++ [⟨monitor, released⟩])

/-- The iter().find search for the client bound to a session. -/
def find_bound_client (clients : List (ClientId × ClientView)) (session_id : SessionId) :
    Option (ClientId × ClientView) :=
  clients.find? (fun e => decide (e.2.session_id = some session_id))

/-- Model of the PageFlip arm of handle_render_event; the boolean is the
result of the notify_buffer_release send. -/
def handle_page_flip (s : ShiftServer) (monitors : List MonitorId) (ok : Bool) :
    ShiftServer × StepOut :=
  if monitors = [] then (s, noOut)
  else
    match s.current_session with
    | none => (s, noOut)
    | some active_session =>
      match find_bound_client s.connected_clients active_session with
      | none => (s, noOut)
      | some (client_id, _) =>
        let r := monitors.foldl (page_flip_step active_session) (s, [])
        if r.2 = [] then (r.1, noOut)
        else if ok then
          ({ r.1 with frame_done_emitted :=
              saturating_add_u64 r.1.frame_done_emitted r.2.length },
           ⟨[(client_id, .buffer_release r.2)], []⟩)
        else (r.1, noOut)

/-- Model of handle_render_event. -/
def handle_render_event (s : ShiftServer) (event : RenderEvt) (ok : Bool) :
    ShiftServer × StepOut :=
  match event with
  | .started monitors =>
    ({ s with monitors := monitors.foldl (fun acc m => ainsert acc m.id m) [] }, noOut)
  | .monitor_online monitor =>
    ({ s with monitors := ainsert s.monitors monitor.id monitor },
     ⟨broadcast_monitor_added s monitor, []⟩)
  | .monitor_offline monitor_id => handle_monitor_offline s monitor_id
  | .fatal_error _ => (s, noOut)
  | .page_flip monitors => handle_page_flip s monitors ok
  | .buffer_request_ack session_id monitor_id buffer =>
    handle_buffer_request_ack s session_id monitor_id buffer ok
  | .buffer_request_rejected session_id monitor_id buffer reason =>
    handle_buffer_request_rejected s session_id monitor_id buffer reason

end ShiftServer

/-! ## Executions of the control plane -/

/-- One input of the control plane event loop.  The boolean carries the result
of the single checked channel send the handler may perform. -/
inductive Ev where
  | accept (client_id : ClientId)
  | add_initial (token : Token) (fresh_id : SessionId)
  | client (client_id : ClientId) (msg : C2SMsg) (ok : Bool)
  | render (event : RenderEvt) (ok : Bool)
deriving DecidableEq, Repr

def applyEv (s : ShiftServer) : Ev → ShiftServer × StepOut
  | .accept client_id => (s.handle_accept client_id, noOut)
  | .add_initial token fresh_id => (s.add_initial_session token fresh_id, noOut)
  | .client client_id msg ok => s.handle_client_message client_id msg ok
  | .render event ok => s.handle_render_event event ok

def runEvents (s : ShiftServer) : List Ev → ShiftServer
  | [] => s
  | e :: es => runEvents (applyEv s e).1 es

/-- A control plane state reachable from the bind-time state by accepting
connections, minting the initial admin session, and handling client messages
and render events. -/
def Reachable (s : ShiftServer) : Prop :=
  ∃ es : List Ev, runEvents ShiftServer.initial es = s

/-! ## Ownership invariant -/

abbrev SlotTriple := SessionId × MonitorId × BufferIndex

def flipTriple (p : PendingFlip) : SlotTriple := (p.session_id, p.monitor_id, p.buffer)

def reqTriple (p : PendingBufferRequest) : SlotTriple :=
  (p.session_id, p.monitor_id, p.buffer)

/-- Owner the server reads for a slot: the ledger entry, defaulting to
Client. -/
def ownerOf (s : ShiftServer) (k : SlotTriple) : BufferOwner :=
  (alookup s.buffer_ownership k).getD .client

def InPending (s : ShiftServer) (k : SlotTriple) : Prop :=
  k ∈ s.pending_buffer_requests.map reqTriple

def InWaiting (s : ShiftServer) (k : SlotTriple) : Prop :=
  k ∈ s.waiting_flip.map flipTriple

def IsFront (s : ShiftServer) (k : SlotTriple) : Prop :=
  alookup s.front_buffers (k.1, k.2.1) = some k.2.2

/-- The ownership invariant exactly as claim C1 states it: Compositor-owned
iff pending, waiting for flip, or front. -/
def ClaimedOwnershipInv (s : ShiftServer) : Prop :=
  ∀ k : SlotTriple, ownerOf s k = .shift ↔ (InPending s k ∨ InWaiting s k ∨ IsFront s k)

/-- The ownership invariant the code maintains: Compositor-owned iff waiting
for flip or front; slots with merely in-flight requests are still
Client-owned. -/
def OwnershipInv (s : ShiftServer) : Prop :=
  (∀ k : SlotTriple, ownerOf s k = .shift ↔ (InWaiting s k ∨ IsFront s k)) ∧
  (∀ p ∈ s.pending_buffer_requests, ownerOf s (reqTriple p) = .client)

/-- Strengthened invariant needed to push OwnershipInv through every
handler. -/
structure ServerInv (s : ShiftServer) : Prop where
  own_iff : ∀ k : SlotTriple, ownerOf s k = .shift ↔ (InWaiting s k ∨ IsFront s k)
  pending_client : ∀ p ∈ s.pending_buffer_requests, ownerOf s (reqTriple p) = .client
  waiting_not_front : ∀ p ∈ s.waiting_flip,
    alookup s.front_buffers (p.session_id, p.monitor_id) ≠ some p.buffer
  waiting_nodup : (s.waiting_flip.map flipTriple).Nodup
  pending_nodup : (s.pending_buffer_requests.map reqTriple).Nodup

/-- Every in-flight request belongs to a connected client that is bound to
some session.  This holds along executions whose accepted client ids are
fresh (client ids are opaque random 128-bit values in the source). -/
def PendingBound (s : ShiftServer) : Prop :=
  ∀ p ∈ s.pending_buffer_requests, ∃ c,
    alookup s.connected_clients p.client_id = some c ∧ c.session_id.isSome = true

/-! ## Message counting per session and monitor -/

def countAckMsgs (monitor_id : MonitorId) (outs : List (ClientId × S2CMsg)) : Nat :=
  (outs.filter (fun e =>
    match e.2 with
    | .buffer_request_ack m _ => decide (m = monitor_id)
    | _ => false)).length

def countRelEntries (monitor_id : MonitorId) (buffers : List BufferRelease) : Nat :=
  (buffers.filter (fun r => decide (r.monitor_id = monitor_id))).length

def countRelMsgs (monitor_id : MonitorId) (outs : List (ClientId × S2CMsg)) : Nat :=
  (outs.map (fun e =>
    match e.2 with
    | .buffer_release buffers => countRelEntries monitor_id buffers
    | _ => 0)).sum

/-- BUFFER_REQUEST_ACK messages one step emits for the pair sm.  Ack messages
are only emitted by an ack event, and always for the session the render event
names. -/
def stepAck (sm : SessionId × MonitorId) (s : ShiftServer) (e : Ev) : Nat :=
  match e with
  | .render (.buffer_request_ack session_id _ _) _ =>
    if session_id = sm.1 then countAckMsgs sm.2 (applyEv s e).2.to_clients else 0
  | _ => 0

/-- BUFFER_RELEASE records one step emits for the pair sm.  Release records
are only emitted by a page flip, and always for the active session. -/
def stepRel (sm : SessionId × MonitorId) (s : ShiftServer) (e : Ev) : Nat :=
  match e with
  | .render (.page_flip _) _ =>
    if s.current_session = some sm.1 then countRelMsgs sm.2 (applyEv s e).2.to_clients
    else 0
  | _ => 0

def ackCount (sm : SessionId × MonitorId) : ShiftServer → List Ev → Nat
  | _, [] => 0
  | s, e :: es => stepAck sm s e + ackCount sm (applyEv s e).1 es

def relCount (sm : SessionId × MonitorId) : ShiftServer → List Ev → Nat
  | _, [] => 0
  | s, e :: es => stepRel sm s e + relCount sm (applyEv s e).1 es

def waitingCount (sm : SessionId × MonitorId) (s : ShiftServer) : Nat :=
  (s.waiting_flip.filter (fun p =>
    decide (p.session_id = sm.1 ∧ p.monitor_id = sm.2))).length

def frontCount (sm : SessionId × MonitorId) (s : ShiftServer) : Nat :=
  match alookup s.front_buffers sm with
  | some _ => 1
  | none => 0

/-- waitingCount on a raw waiting list. -/
def wcount (sm : SessionId × MonitorId) (W : List PendingFlip) : Nat :=
  (W.filter (fun p =>
    decide (p.session_id = sm.1 ∧ p.monitor_id = sm.2))).length

/-- frontCount on a raw front-buffer table. -/
def fcount (sm : SessionId × MonitorId)
    (F : List ((SessionId × MonitorId) × BufferIndex)) : Nat :=
  match alookup F sm with
  | some _ => 1
  | none => 0

/-- A step is clean for the pair sm when its checked channel send succeeds and
it does not purge buffer state for sm: no disconnect of a client bound to the
session, no framebuffer re-link by that client for the monitor, no
monitor-offline for the monitor.  Accepted connections must carry fresh
client ids (they are opaque random values in the source). -/
def CleanStep (sm : SessionId × MonitorId) (s : ShiftServer) (e : Ev) : Bool :=
  match e with
  | .accept client_id => decide (alookup s.connected_clients client_id = none)
  | .add_initial _ _ => true
  | .client client_id msg ok =>
    ok &&
    (match msg with
     | .shutdown =>
       match alookup s.connected_clients client_id with
       | some c => decide (c.session_id ≠ some sm.1)
       | none => true
     | .framebuffer_link payload =>
       match alookup s.connected_clients client_id with
       | some c => decide (¬(c.session_id = some sm.1 ∧ payload.monitor_id = some sm.2))
       | none => true
     | _ => true)
  | .render event ok =>
    ok &&
    (match event with
     | .monitor_offline monitor_id => decide (monitor_id ≠ sm.2)
     | _ => true)

def CleanRun (sm : SessionId × MonitorId) : ShiftServer → List Ev → Bool
  | _, [] => true
  | s, e :: es => CleanStep sm s e && CleanRun sm (applyEv s e).1 es

/-- Concrete execution used to test claim C1: mint the admin token, accept a
connection, authenticate, and issue one valid BUFFER_REQUEST that the renderer
has not yet acknowledged. -/
def c1_events : List Ev :=
  [.add_initial 0 0, .accept 0, .client 0 (.auth 0) true,
   .client 0 (.buffer_request 5 .zero false) true]

/-- Concrete execution used to test claim C3: the standard double-buffer
pipeline, with both slots acknowledged and no page flip yet. -/
def c3_events : List Ev :=
  [.add_initial 0 0, .accept 0, .client 0 (.auth 0) true,
   .client 0 (.buffer_request 5 .zero false) true,
   .render (.buffer_request_ack 0 5 .zero) true,
   .client 0 (.buffer_request 5 .one false) true,
   .render (.buffer_request_ack 0 5 .one) true]

/-- Claim C8 wording of the page flip processing, written from the
specification sentence: for each flipped monitor, if the active session has a
waiting flip whose monitor matches, pop the earliest such entry, install that
slot as the new front, and if a previous front existed return it to Client
ownership and append a BUFFER_RELEASE record; monitors with no matching entry
change nothing. -/
def claim_page_flip (active_session : SessionId) (monitors : List MonitorId)
    (waiting : List PendingFlip)
    (front : List ((SessionId × MonitorId) × BufferIndex))
    (own : List (SlotTriple × BufferOwner)) :
    List PendingFlip × List ((SessionId × MonitorId) × BufferIndex) ×
      List (SlotTriple × BufferOwner) × List BufferRelease :=
  match monitors with
  | [] => (waiting, front, own, [])
  | monitor :: rest =>
    match extractFirst (fun p =>
        decide (p.session_id = active_session ∧ p.monitor_id = monitor)) waiting with
    | none => claim_page_flip active_session rest waiting front own
    | some (entry, waiting') =>
      let previous := alookup front (active_session, monitor)
      let front' := ainsert front (active_session, monitor) entry.buffer
      match previous with
      | none => claim_page_flip active_session rest waiting' front' own
      | some released =>
        let own' := ainsert own (active_session, monitor, released) .client
        let r := claim_page_flip active_session rest waiting' front' own'
        (r.1, r.2.1, r.2.2.1, ⟨monitor, released⟩ :: r.2.2.2)

/-! ## Library lemmas for the map and iterator helpers -/

theorem alookup_aeraseAll [DecidableEq κ] (m : List (κ × α)) (k k' : κ) :
    alookup (aeraseAll m k) k' = if k = k' then none else alookup m k' := by
  induction m with
  | nil => simp [alookup, aeraseAll]
  | cons e rest ih =>
    simp only [aeraseAll, List.filter] at ih ⊢
    by_cases hek : e.1 = k
    · rw [show (decide (e.1 ≠ k)) = false by simp [hek]]
      by_cases hkk : k = k' <;> simp_all [alookup]
    · rw [show (decide (e.1 ≠ k)) = true by simp [hek]]
      by_cases hek' : e.1 = k' <;> by_cases hkk : k = k' <;>
        simp_all [alookup]

theorem alookup_ainsert [DecidableEq κ] (m : List (κ × α)) (k k' : κ) (v : α) :
    alookup (ainsert m k v) k' = if k = k' then some v else alookup m k' := by
  unfold ainsert
  by_cases hkk : k = k' <;>
    simp [alookup, hkk, alookup_aeraseAll]

theorem alookup_filter_key [DecidableEq κ] (m : List (κ × α)) (q : κ → Bool) (k : κ) :
    alookup (m.filter (fun e => q e.1)) k = if q k then alookup m k else none := by
  induction m with
  | nil => simp [alookup]
  | cons e rest ih =>
    by_cases he : q e.1
    · by_cases hek : e.1 = k <;> simp_all [alookup, List.filter]
    · by_cases hek : e.1 = k <;> simp_all [alookup, List.filter]


theorem extractFirst_eq_none (p : α → Bool) (l : List α) :
    extractFirst p l = none ↔ ∀ x ∈ l, p x = false := by
  induction l with
  | nil => simp [extractFirst]
  | cons x xs ih =>
    by_cases hx : p x <;> simp [extractFirst, hx, ih]

theorem extractFirst_spec (p : α → Bool) (l : List α) (x : α) (rest : List α)
    (h : extractFirst p l = some (x, rest)) :
    p x = true ∧ x ∈ l ∧ List.Sublist rest l := by
  induction l generalizing rest with
  | nil => simp [extractFirst] at h
  | cons y ys ih =>
    by_cases hy : p y
    · simp only [extractFirst, hy, if_true, Option.some.injEq, Prod.mk.injEq] at h
      obtain ⟨hx, hrest⟩ := h
      subst hx; subst hrest
      exact ⟨hy, List.mem_cons_self _ _, List.sublist_cons_self _ _⟩
    · simp only [extractFirst, hy, if_false, Bool.false_eq_true] at h
      match he : extractFirst p ys with
      | none => rw [he] at h; simp at h
      | some (x', rest') =>
        rw [he] at h
        simp only [Option.map_some', Option.some.injEq, Prod.mk.injEq] at h
        obtain ⟨hx, hrest⟩ := h
        subst hx
        obtain ⟨hpx, hmem, hsub⟩ := ih rest' he
        subst hrest
        exact ⟨hpx, List.mem_cons_of_mem _ hmem, List.Sublist.cons₂ _ hsub⟩


theorem parse_from_bytes_consumed_pos (bytes : List Char) (fds : List Int)
    (f : TabMessageFrame) (u : Nat)
    (h : TabMessageFrame.parse_from_bytes bytes fds = some (f, u)) : 0 < u := by
  unfold TabMessageFrame.parse_from_bytes at h
  cases h1 : position (fun b => decide (b = '\n')) bytes with
  | none => simp [h1] at h
  | some first_nl =>
    simp only [h1] at h
    cases h2 : position (fun b => decide (b = '\n')) (bytes.drop (first_nl + 1)) with
    | none => simp [h2] at h
    | some second_rel =>
      simp only [h2, Option.some.injEq, Prod.mk.injEq] at h
      omega

/-! ## Codec lemmas -/

theorem dropWhile_eq_self_of_forall (q : α → Bool) (l : List α)
    (h : ∀ a ∈ l, q a = false) : l.dropWhile q = l := by
  cases l with
  | nil => rfl
  | cons x xs => simp [List.dropWhile, h x (List.mem_cons_self _ _)]

theorem trim_end_matches_nl_eq_self (p : List Char) (h : '\n' ∉ p) :
    trim_end_matches_nl p = p := by
  unfold trim_end_matches_nl
  rw [dropWhile_eq_self_of_forall, List.reverse_reverse]
  intro a ha
  simp only [decide_eq_false_iff_not]
  intro hc
  exact h (hc ▸ List.mem_reverse.mp ha)

theorem position_append (p : α → Bool) (l₁ : List α) (c : α) (l₂ : List α)
    (h : ∀ a ∈ l₁, p a = false) (hc : p c = true) :
    position p (l₁ ++ c :: l₂) = some l₁.length := by
  induction l₁ with
  | nil => simp [position, hc]
  | cons x xs ih =>
    simp [position, h x (List.mem_cons_self _ _),
      ih (fun a ha => h a (List.mem_cons_of_mem _ ha))]

theorem parse_encoded_core (H PL : List Char) (fds : List Int)
    (hH : '\n' ∉ H) (hPL : '\n' ∉ PL) :
    TabMessageFrame.parse_from_bytes (H ++ '\n' :: (PL ++ ['\n'])) fds =
      some (TabMessageFrame.from_lines H PL fds,
        (H ++ '\n' :: (PL ++ ['\n'])).length) := by
  have hnot : ∀ (l : List Char), '\n' ∉ l → ∀ a ∈ l, (decide (a = '\n')) = false := by
    intro l hl a ha
    simp only [decide_eq_false_iff_not]
    intro hc
    exact hl (hc ▸ ha)
  unfold TabMessageFrame.parse_from_bytes
  have hpos1 : position (fun b => decide (b = '\n')) (H ++ '\n' :: (PL ++ ['\n'])) =
      some H.length :=
    position_append _ H '\n' (PL ++ ['\n']) (hnot H hH) (by simp)
  have hdrop : (H ++ '\n' :: (PL ++ ['\n'])).drop (H.length + 1) = PL ++ ['\n'] := by
    have hsplit : H ++ '\n' :: (PL ++ ['\n']) = (H ++ ['\n']) ++ (PL ++ ['\n']) := by
      simp
    have hlen : (H ++ ['\n']).length = H.length + 1 := by simp
    rw [hsplit, ← hlen, List.drop_left]
  have hpos2 : position (fun b => decide (b = '\n')) (PL ++ ['\n']) = some PL.length := by
    have heq : PL ++ ['\n'] = PL ++ '\n' :: ([] : List Char) := rfl
    rw [heq]
    exact position_append _ PL '\n' [] (hnot PL hPL) (by simp)
  simp only [hpos1, hdrop, hpos2]
  have htake1 : (H ++ '\n' :: (PL ++ ['\n'])).take H.length = H := List.take_left H _
  have htake2 : (PL ++ ['\n']).take PL.length = PL := List.take_left PL _
  rw [htake1, htake2]
  have hlen2 : H.length + 1 + PL.length + 1 = (H ++ '\n' :: (PL ++ ['\n'])).length := by
    simp
    omega
  rw [hlen2]

theorem process_pending_step (pending_bytes : List Char) (pending_fds : List Int)
    (ready : List TabMessageFrame) (frame : TabMessageFrame) (used : Nat)
    (hne : pending_bytes ≠ [])
    (hp : TabMessageFrame.parse_from_bytes pending_bytes pending_fds = some (frame, used)) :
    process_pending pending_bytes pending_fds ready =
      process_pending (pending_bytes.drop used) [] (ready ++ [frame]) := by
  rw [process_pending, dif_neg hne]
  split
  · rename_i f u heq
    rw [hp] at heq
    injection heq with h
    injection h with h1 h2
    rw [h1, h2]
  · rename_i heq
    rw [hp] at heq
    exact absurd heq (by simp)

/-! ## Claim C5: serialize / parse_from_bytes round trip -/

/-- Claim C5 as stated is false: the frame with header consisting of the
letter h followed by a space is well-formed in the claim's sense (its header
contains no LF), yet serialize passes the header through trim_end, so parsing
the encoded bytes yields a frame with the space removed, not the identical
frame. -/
theorem c5_counterexample :
    claim_well_formed (⟨['h', ' '], none, []⟩ : TabMessageFrame) = true ∧
    TabMessageFrame.parse_from_bytes
        (TabMessageFrame.encoded_bytes (⟨['h', ' '], none, []⟩ : TabMessageFrame)) [] =
      some ((⟨['h'], none, []⟩ : TabMessageFrame), 7) ∧
    TabMessageFrame.parse_from_bytes
        (TabMessageFrame.encoded_bytes (⟨['h', ' '], none, []⟩ : TabMessageFrame)) [] ≠
      some ((⟨['h', ' '], none, []⟩ : TabMessageFrame),
        (TabMessageFrame.encoded_bytes (⟨['h', ' '], none, []⟩ : TabMessageFrame)).length) := by
  refine ⟨by decide, by decide, by decide⟩

/-- Claim C5, amended: for every frame whose header contains no LF and ends in
no trailing whitespace (trim_end leaves it unchanged), and whose payload is
absent or a line that contains no LF and is not the sentinel, serializing to
header LF payload LF and parsing back with the same FD list yields the
identical frame and consumes exactly all the bytes. -/
theorem c5_roundtrip (f : TabMessageFrame)
    (hwf : claim_well_formed f = true) (htrim : trim_end f.header = f.header) :
    TabMessageFrame.parse_from_bytes (TabMessageFrame.encoded_bytes f) f.fds =
      some (f, (TabMessageFrame.encoded_bytes f).length) := by
  obtain ⟨H, pay, fds⟩ := f
  unfold claim_well_formed at hwf
  simp only at hwf htrim
  cases pay with
  | none =>
    simp only [Bool.and_eq_true, decide_eq_true_eq] at hwf
    have hb : TabMessageFrame.encoded_bytes ⟨H, none, fds⟩ =
        H ++ '\n' :: (nul4 ++ ['\n']) := by
      unfold TabMessageFrame.encoded_bytes TabMessageFrame.serialize
      simp only [htrim]
    rw [hb, parse_encoded_core H nul4 fds hwf.1 (by decide)]
    unfold TabMessageFrame.from_lines
    simp
  | some p =>
    simp only [Bool.and_eq_true, decide_eq_true_eq] at hwf
    obtain ⟨hH, hp, hnn⟩ := hwf
    have hb : TabMessageFrame.encoded_bytes ⟨H, some p, fds⟩ =
        H ++ '\n' :: (p ++ ['\n']) := by
      unfold TabMessageFrame.encoded_bytes TabMessageFrame.serialize
      simp only [htrim, trim_end_matches_nl_eq_self p hp]
    rw [hb, parse_encoded_core H p fds hH hp]
    unfold TabMessageFrame.from_lines
    simp [hnn]

/-- Witness for c5_roundtrip at a concrete frame. -/
theorem c5_roundtrip_witness :
    TabMessageFrame.parse_from_bytes
        (TabMessageFrame.encoded_bytes (⟨['h', 'i'], some ['o', 'k'], [3]⟩ : TabMessageFrame))
        [3] =
      some ((⟨['h', 'i'], some ['o', 'k'], [3]⟩ : TabMessageFrame),
        (TabMessageFrame.encoded_bytes
          (⟨['h', 'i'], some ['o', 'k'], [3]⟩ : TabMessageFrame)).length) :=
  c5_roundtrip ⟨['h', 'i'], some ['o', 'k'], [3]⟩ (by decide) (by decide)

/-! ## Claim C6: trailing data handling on receive -/

/-- Claim C6 as stated is false: on a datagram holding a complete frame
followed by the nonzero trailing bytes Z LF, recv_frame succeeds (the
trailing bytes are kept in the connection buffer, and no all-zero check is
performed), and the frame reader turns a datagram holding two frames into two
ready frames, not one. -/
theorem c6_counterexample :
    recv_frame_process ['a', '\n', 'b', '\n', 'Z', '\n'] [] [] =
      .ok ((⟨['a'], some ['b'], []⟩ : TabMessageFrame), ['Z', '\n']) ∧
    ¬(∀ c ∈ ['Z', '\n'], c = '\x00') ∧
    (process_pending ['a', '\n', 'b', '\n', 'c', '\n', 'd', '\n'] [] []).2.2 =
      [(⟨['a'], some ['b'], []⟩ : TabMessageFrame),
       (⟨['c'], some ['d'], []⟩ : TabMessageFrame)] := by
  refine ⟨by rfl, by decide, ?_⟩
  rw [process_pending_step _ _ _ ⟨['a'], some ['b'], []⟩ 4 (by decide) (by decide)]
  show (process_pending ['c', '\n', 'd', '\n'] [] [⟨['a'], some ['b'], []⟩]).2.2 = _
  rw [process_pending_step _ _ _ ⟨['c'], some ['d'], []⟩ 4 (by decide) (by decide)]
  show (process_pending [] []
    [⟨['a'], some ['b'], []⟩, ⟨['c'], some ['d'], []⟩]).2.2 = _
  rw [process_pending, dif_pos rfl]

/-- Claim C6, amended: when a received datagram parses into a frame that does
not consume all the bytes, the codec fails with TrailingData exactly when the
frame carried file descriptors; otherwise the remaining bytes are appended to
the connection buffer (and parsed later as further frames).  No all-zero
validation of the trailing bytes exists. -/
theorem c6_trailing_data (data : List Char) (fds : List Int) (buffer : List Char)
    (frame : TabMessageFrame) (consumed : Nat)
    (hp : TabMessageFrame.parse_from_bytes data fds = some (frame, consumed))
    (hne : data ≠ []) :
    (consumed < data.length ∧ frame.fds ≠ [] →
      recv_frame_process data fds buffer = .error .trailingData) ∧
    (¬(consumed < data.length ∧ frame.fds ≠ []) →
      recv_frame_process data fds buffer = .ok (frame, buffer ++ data.drop consumed)) := by
  unfold recv_frame_process
  rw [if_neg hne]
  simp only [hp]
  constructor
  · rintro ⟨h1, h2⟩
    rw [if_pos h1, if_pos h2]
  · intro h
    by_cases h1 : consumed < data.length
    · have h2 : ¬frame.fds ≠ [] := fun hf => h ⟨h1, hf⟩
      rw [if_pos h1, if_neg h2]
    · rw [if_neg h1]
      have hdrop : data.drop consumed = [] :=
        List.drop_eq_nil_of_le (Nat.le_of_not_lt h1)
      rw [hdrop, List.append_nil]

/-- Witness for c6_trailing_data: a frame with an attached FD and trailing
bytes is rejected with TrailingData. -/
theorem c6_trailing_data_witness :
    recv_frame_process ['a', '\n', 'b', '\n', 'Z', '\n'] [7] [] =
      .error .trailingData :=
  (c6_trailing_data ['a', '\n', 'b', '\n', 'Z', '\n'] [7] []
    ⟨['a'], some ['b'], [7]⟩ 4 (by decide) (by decide)).1 (by decide)

/-! ## Control plane invariant lemmas -/

theorem inWaiting_iff (s : ShiftServer) (k : SlotTriple) :
    InWaiting s k ↔ ∃ p ∈ s.waiting_flip, flipTriple p = k := by
  simp [InWaiting, List.mem_map]

theorem inPending_iff (s : ShiftServer) (k : SlotTriple) :
    InPending s k ↔ ∃ p ∈ s.pending_buffer_requests, reqTriple p = k := by
  simp [InPending, List.mem_map]

theorem ownerOf_ne_shift_of_client (s : ShiftServer) (k : SlotTriple)
    (h : ownerOf s k = .client) : ¬ownerOf s k = .shift := by
  rw [h]; decide

/-- In a state satisfying the invariant, a slot with an in-flight request is
neither waiting for a flip nor a front buffer. -/
theorem not_waiting_not_front_of_pending (s : ShiftServer) (h : ServerInv s)
    (p : PendingBufferRequest) (hp : p ∈ s.pending_buffer_requests) :
    ¬InWaiting s (reqTriple p) ∧ ¬IsFront s (reqTriple p) := by
  have hcl := h.pending_client p hp
  have hns := ownerOf_ne_shift_of_client s (reqTriple p) hcl
  constructor
  · intro hw
    exact hns ((h.own_iff (reqTriple p)).mpr (Or.inl hw))
  · intro hf
    exact hns ((h.own_iff (reqTriple p)).mpr (Or.inr hf))

/-- The invariant only looks at the buffer bookkeeping fields, so it transfers
along any step that leaves them unchanged. -/
theorem serverInv_congr (s s' : ShiftServer)
    (hpend : s'.pending_buffer_requests = s.pending_buffer_requests)
    (hwait : s'.waiting_flip = s.waiting_flip)
    (hfront : s'.front_buffers = s.front_buffers)
    (hown : s'.buffer_ownership = s.buffer_ownership)
    (h : ServerInv s) : ServerInv s' := by
  constructor
  · intro k
    have e1 : ownerOf s' k = ownerOf s k := by unfold ownerOf; rw [hown]
    have e2 : InWaiting s' k ↔ InWaiting s k := by unfold InWaiting; rw [hwait]
    have e3 : IsFront s' k ↔ IsFront s k := by unfold IsFront; rw [hfront]
    rw [e1, e2, e3]
    exact h.own_iff k
  · intro p hp
    rw [hpend] at hp
    have e1 : ownerOf s' (reqTriple p) = ownerOf s (reqTriple p) := by
      unfold ownerOf; rw [hown]
    rw [e1]
    exact h.pending_client p hp
  · intro p hp
    rw [hwait] at hp
    rw [hfront]
    exact h.waiting_not_front p hp
  · rw [hwait]; exact h.waiting_nodup
  · rw [hpend]; exact h.pending_nodup

/-- Purging every record of one session (the disconnect_client cleanup)
preserves the invariant. -/
theorem serverInv_purge_session (s : ShiftServer) (cid : ClientId) (sid : SessionId)
    (s' : ShiftServer)
    (hpend : s'.pending_buffer_requests = s.pending_buffer_requests.filter
      (fun p => decide (p.client_id ≠ cid ∧ p.session_id ≠ sid)))
    (hwait : s'.waiting_flip = s.waiting_flip.filter
      (fun p => decide (p.session_id ≠ sid)))
    (hfront : s'.front_buffers = s.front_buffers.filter
      (fun e => decide (e.1.1 ≠ sid)))
    (hown : s'.buffer_ownership = s.buffer_ownership.filter
      (fun e => decide (e.1.1 ≠ sid)))
    (h : ServerInv s) : ServerInv s' := by
  have howner : ∀ k : SlotTriple,
      ownerOf s' k = if k.1 ≠ sid then ownerOf s k else .client := by
    intro k
    unfold ownerOf
    rw [hown, alookup_filter_key s.buffer_ownership (fun key => decide (key.1 ≠ sid)) k]
    by_cases hk : k.1 ≠ sid
    · rw [if_pos (by simp only [decide_eq_true_eq]; exact hk), if_pos hk]
    · rw [if_neg (by simp only [decide_eq_true_eq, Bool.not_eq_true]; exact hk), if_neg hk]
      rfl
  have hwaitmem : ∀ k : SlotTriple, InWaiting s' k ↔ (InWaiting s k ∧ k.1 ≠ sid) := by
    intro k
    rw [inWaiting_iff, inWaiting_iff]
    constructor
    · rintro ⟨p, hp, rfl⟩
      rw [hwait] at hp
      rw [List.mem_filter] at hp
      obtain ⟨hmem, hpred⟩ := hp
      simp only [decide_eq_true_eq] at hpred
      exact ⟨⟨p, hmem, rfl⟩, hpred⟩
    · rintro ⟨⟨p, hp, rfl⟩, hne⟩
      refine ⟨p, ?_, rfl⟩
      rw [hwait, List.mem_filter]
      exact ⟨hp, by simpa [flipTriple] using hne⟩
  have hfrontmem : ∀ k : SlotTriple, IsFront s' k ↔ (IsFront s k ∧ k.1 ≠ sid) := by
    intro k
    unfold IsFront
    rw [hfront,
      alookup_filter_key s.front_buffers (fun key => decide (key.1 ≠ sid)) (k.1, k.2.1)]
    by_cases hk : k.1 ≠ sid
    · rw [if_pos (by simp only [decide_eq_true_eq]; exact hk)]
      simp [hk]
    · rw [if_neg (by simp only [decide_eq_true_eq, Bool.not_eq_true]; exact hk)]
      simp [hk]
  constructor
  · intro k
    rw [howner k, hwaitmem k, hfrontmem k]
    by_cases hk : k.1 ≠ sid
    · rw [if_pos hk, h.own_iff k]
      tauto
    · rw [if_neg hk]
      constructor
      · intro hcs
        exact absurd hcs (by decide)
      · rintro (⟨_, hne⟩ | ⟨_, hne⟩) <;> exact absurd hne hk
  · intro p hp
    rw [hpend, List.mem_filter] at hp
    obtain ⟨hmem, hpred⟩ := hp
    simp only [decide_eq_true_eq] at hpred
    rw [howner (reqTriple p), if_pos (show (reqTriple p).1 ≠ sid from hpred.2)]
    exact h.pending_client p hmem
  · intro p hp
    rw [hwait, List.mem_filter] at hp
    obtain ⟨hmem, hpred⟩ := hp
    simp only [decide_eq_true_eq] at hpred
    rw [hfront, alookup_filter_key s.front_buffers (fun key => decide (key.1 ≠ sid))
      (p.session_id, p.monitor_id),
      if_pos (by simp only [decide_eq_true_eq]; exact hpred)]
    exact h.waiting_not_front p hmem
  · rw [hwait]
    exact List.Nodup.sublist ((List.filter_sublist s.waiting_flip).map flipTriple)
      h.waiting_nodup
  · rw [hpend]
    exact List.Nodup.sublist
      ((List.filter_sublist s.pending_buffer_requests).map reqTriple) h.pending_nodup

/-- disconnect_client preserves the invariant. -/
theorem serverInv_disconnect (s : ShiftServer) (cid : ClientId) (h : ServerInv s) :
    ServerInv (s.disconnect_client cid).1 := by
  unfold ShiftServer.disconnect_client
  cases hc : alookup s.connected_clients cid with
  | none => simp only [hc]; exact h
  | some client =>
    simp only [hc]
    cases hcs : client.session_id with
    | none =>
      simp only [hcs]
      exact serverInv_congr s _ rfl rfl rfl rfl h
    | some sid =>
      simp only [hcs]
      split
      · exact serverInv_purge_session s cid sid _ rfl rfl rfl rfl h
      · exact serverInv_purge_session s cid sid _ rfl rfl rfl rfl h

theorem extractFirst_perm (p : α → Bool) (l : List α) (x : α) (rest : List α)
    (h : extractFirst p l = some (x, rest)) : l.Perm (x :: rest) := by
  induction l generalizing rest with
  | nil => simp [extractFirst] at h
  | cons y ys ih =>
    by_cases hy : p y
    · simp only [extractFirst, hy, if_true, Option.some.injEq, Prod.mk.injEq] at h
      obtain ⟨rfl, rfl⟩ := h
      exact List.Perm.refl _
    · simp only [extractFirst, hy, if_false, Bool.false_eq_true] at h
      match he : extractFirst p ys with
      | none => rw [he] at h; simp at h
      | some (x', rest') =>
        rw [he] at h
        simp only [Option.map_some', Option.some.injEq, Prod.mk.injEq] at h
        obtain ⟨h1, h2⟩ := h
        rw [h1] at he
        rw [← h2]
        exact ((ih rest' he).cons y).trans (List.Perm.swap x y rest')

/-- Appending a validated request to pending_buffer_requests preserves the
invariant. -/
theorem serverInv_pending_push (s : ShiftServer) (p0 : PendingBufferRequest)
    (hown : ownerOf s (reqTriple p0) = .client)
    (hnew : ∀ p ∈ s.pending_buffer_requests,
      ¬(p.session_id = p0.session_id ∧ p.monitor_id = p0.monitor_id ∧ p.buffer = p0.buffer))
    (h : ServerInv s) :
    ServerInv { s with
      pending_buffer_requests := s.pending_buffer_requests ++ [p0] } := by
  constructor
  · intro k
    exact h.own_iff k
  · intro p hp
    rw [List.mem_append] at hp
    cases hp with
    | inl hp => exact h.pending_client p hp
    | inr hp =>
      rw [List.mem_singleton] at hp
      subst hp
      exact hown
  · intro p hp
    exact h.waiting_not_front p hp
  · exact h.waiting_nodup
  · show ((s.pending_buffer_requests ++ [p0]).map reqTriple).Nodup
    rw [List.map_append, List.map_singleton]
    rw [List.nodup_append]
    refine ⟨h.pending_nodup, List.nodup_singleton _, ?_⟩
    intro t ht ht0
    rw [List.mem_singleton] at ht0
    subst ht0
    rw [List.mem_map] at ht
    obtain ⟨p, hp, hpt⟩ := ht
    apply hnew p hp
    have h1 : p.session_id = p0.session_id := congrArg Prod.fst hpt
    have h2 : p.monitor_id = p0.monitor_id := congrArg (fun t => t.2.1) hpt
    have h3 : p.buffer = p0.buffer := congrArg (fun t => t.2.2) hpt
    exact ⟨h1, h2, h3⟩

/-- handle_auth preserves the invariant. -/
theorem serverInv_handle_auth (s : ShiftServer) (cid : ClientId) (tok : Token)
    (ok : Bool) (h : ServerInv s) : ServerInv (s.handle_auth cid tok ok).1 := by
  unfold ShiftServer.handle_auth
  cases hp : alookup s.pending_sessions tok with
  | none =>
    simp only [hp]
    cases hc : alookup s.connected_clients cid <;> simp only [hc] <;> exact h
  | some ps =>
    simp only [hp]
    cases hc : alookup s.connected_clients cid with
    | none =>
      simp only [hc]
      exact serverInv_congr s _ rfl rfl rfl rfl h
    | some client =>
      simp only [hc]
      cases ok with
      | false =>
        exact serverInv_disconnect _ cid (serverInv_congr s _ rfl rfl rfl rfl h)
      | true =>
        rw [if_pos rfl]
        exact serverInv_congr s _ (by split <;> rfl) (by split <;> rfl)
          (by split <;> rfl) (by split <;> rfl) h

/-- handle_create_session preserves the invariant. -/
theorem serverInv_handle_create_session (s : ShiftServer) (cid : ClientId)
    (req : SessionCreateReq) (ftok : Token) (fid : SessionId) (ok : Bool)
    (h : ServerInv s) :
    ServerInv (s.handle_create_session cid req ftok fid ok).1 := by
  unfold ShiftServer.handle_create_session
  cases hc : alookup s.connected_clients cid with
  | none => simp only [hc]; exact h
  | some client =>
    simp only [hc]
    cases hs : client.session_id.bind (fun sid => alookup s.active_sessions sid) with
    | none => simp only [hs]; exact h
    | some client_session =>
      simp only [hs]
      by_cases hrole : client_session.role ≠ Role.admin
      · rw [if_pos hrole]; exact h
      · rw [if_neg hrole]
        cases ok with
        | false =>
          exact serverInv_disconnect _ cid (serverInv_congr s _ rfl rfl rfl rfl h)
        | true =>
          exact serverInv_congr s _ rfl rfl rfl rfl h

/-- handle_buffer_request preserves the invariant. -/
theorem serverInv_handle_buffer_request (s : ShiftServer) (cid : ClientId)
    (mid : MonitorId) (b : BufferIndex) (fence ok : Bool) (h : ServerInv s) :
    ServerInv (s.handle_buffer_request cid mid b fence ok).1 := by
  unfold ShiftServer.handle_buffer_request
  cases hc : alookup s.connected_clients cid with
  | none => simp only [hc]; exact h
  | some client =>
    simp only [hc]
    cases hs : client.session_id.bind (fun sid => alookup s.active_sessions sid) with
    | none => simp only [hs]; exact h
    | some client_session =>
      simp only [hs]
      by_cases h1 :
          ((alookup s.buffer_ownership (client_session.id, mid, b)).getD .client ≠
            BufferOwner.client)
      · rw [if_pos h1]; exact h
      · rw [if_neg h1]
        by_cases h2 : (s.pending_buffer_requests.any fun p =>
            decide (p.session_id = client_session.id ∧ p.monitor_id = mid ∧
              p.buffer = b)) = true
        · rw [if_pos h2]; exact h
        · rw [if_neg h2]
          cases ok with
          | false => exact h
          | true =>
            apply serverInv_pending_push s ⟨cid, client_session.id, mid, b⟩ _ _ h
            · rw [not_not] at h1
              exact h1
            · intro p hp hcontra
              apply h2
              rw [List.any_eq_true]
              exact ⟨p, hp, by simpa using hcontra⟩

/-- The framebuffer re-link reset (clear pending, waiting and front for the
pair and mark both slots Client-owned) preserves the invariant. -/
theorem serverInv_fb_reset (s : ShiftServer) (sid : SessionId) (mid : MonitorId)
    (s' : ShiftServer)
    (hpend : s'.pending_buffer_requests = s.pending_buffer_requests.filter
      (fun p => decide (¬(p.session_id = sid ∧ p.monitor_id = mid))))
    (hwait : s'.waiting_flip = s.waiting_flip.filter
      (fun p => decide (¬(p.session_id = sid ∧ p.monitor_id = mid))))
    (hfront : s'.front_buffers = aeraseAll s.front_buffers (sid, mid))
    (hown : s'.buffer_ownership =
      ainsert (ainsert s.buffer_ownership (sid, mid, .zero) .client)
        (sid, mid, .one) .client)
    (h : ServerInv s) : ServerInv s' := by
  have howner : ∀ k : SlotTriple,
      ownerOf s' k = if (k.1, k.2.1) = (sid, mid) then .client else ownerOf s k := by
    intro k
    obtain ⟨a, m, bi⟩ := k
    unfold ownerOf
    rw [hown, alookup_ainsert, alookup_ainsert]
    by_cases hk : ((a, m) : SessionId × MonitorId) = (sid, mid)
    · rw [if_pos hk]
      obtain ⟨rfl, rfl⟩ := Prod.mk.injEq .. ▸ hk
      cases bi <;> simp
    · rw [if_neg hk]
      have h1 : ¬((sid, mid, BufferIndex.one) = (a, m, bi)) := by
        intro hcontra
        apply hk
        rw [Prod.ext_iff] at hcontra ⊢
        exact ⟨hcontra.1.symm, (Prod.ext_iff.mp hcontra.2).1.symm⟩
      have h0 : ¬((sid, mid, BufferIndex.zero) = (a, m, bi)) := by
        intro hcontra
        apply hk
        rw [Prod.ext_iff] at hcontra ⊢
        exact ⟨hcontra.1.symm, (Prod.ext_iff.mp hcontra.2).1.symm⟩
      rw [if_neg h1, if_neg h0]
  have hwaitmem : ∀ k : SlotTriple,
      InWaiting s' k ↔ (InWaiting s k ∧ ¬(k.1 = sid ∧ k.2.1 = mid)) := by
    intro k
    rw [inWaiting_iff, inWaiting_iff]
    constructor
    · rintro ⟨p, hp, rfl⟩
      rw [hwait, List.mem_filter] at hp
      obtain ⟨hmem, hpred⟩ := hp
      simp only [decide_eq_true_eq] at hpred
      exact ⟨⟨p, hmem, rfl⟩, hpred⟩
    · rintro ⟨⟨p, hp, rfl⟩, hne⟩
      refine ⟨p, ?_, rfl⟩
      rw [hwait, List.mem_filter]
      refine ⟨hp, ?_⟩
      simp only [decide_eq_true_eq]
      exact hne
  have hfrontmem : ∀ k : SlotTriple,
      IsFront s' k ↔ (IsFront s k ∧ ¬((k.1, k.2.1) = (sid, mid))) := by
    intro k
    unfold IsFront
    rw [hfront, alookup_aeraseAll]
    by_cases hk : ((sid, mid) : SessionId × MonitorId) = (k.1, k.2.1)
    · rw [if_pos hk]
      simp [hk.symm]
    · rw [if_neg hk]
      have : ¬((k.1, k.2.1) = (sid, mid)) := fun hcontra => hk hcontra.symm
      simp [this]
  have hpairiff : ∀ k : SlotTriple,
      ((k.1, k.2.1) = ((sid, mid) : SessionId × MonitorId)) ↔ (k.1 = sid ∧ k.2.1 = mid) := by
    intro k
    rw [Prod.ext_iff]
  constructor
  · intro k
    rw [howner k, hwaitmem k, hfrontmem k]
    by_cases hk : ((k.1, k.2.1) : SessionId × MonitorId) = (sid, mid)
    · rw [if_pos hk]
      constructor
      · intro hcs; exact absurd hcs (by decide)
      · rintro (⟨_, hne⟩ | ⟨_, hne⟩)
        · exact absurd ((hpairiff k).mp hk) hne
        · exact absurd hk hne
    · rw [if_neg hk, h.own_iff k]
      have hne' : ¬(k.1 = sid ∧ k.2.1 = mid) := fun hcontra => hk ((hpairiff k).mpr hcontra)
      tauto
  · intro p hp
    rw [hpend, List.mem_filter] at hp
    obtain ⟨hmem, hpred⟩ := hp
    simp only [decide_eq_true_eq] at hpred
    rw [howner (reqTriple p), if_neg]
    · exact h.pending_client p hmem
    · intro hcontra
      exact hpred ((hpairiff (reqTriple p)).mp hcontra)
  · intro p hp
    rw [hwait, List.mem_filter] at hp
    obtain ⟨hmem, hpred⟩ := hp
    simp only [decide_eq_true_eq] at hpred
    rw [hfront, alookup_aeraseAll, if_neg]
    · exact h.waiting_not_front p hmem
    · intro hcontra
      rw [Prod.ext_iff] at hcontra
      exact hpred ⟨hcontra.1.symm, hcontra.2.symm⟩
  · rw [hwait]
    exact List.Nodup.sublist ((List.filter_sublist s.waiting_flip).map flipTriple)
      h.waiting_nodup
  · rw [hpend]
    exact List.Nodup.sublist
      ((List.filter_sublist s.pending_buffer_requests).map reqTriple) h.pending_nodup

/-- handle_framebuffer_link preserves the invariant. -/
theorem serverInv_handle_framebuffer_link (s : ShiftServer) (cid : ClientId)
    (payload : FramebufferLinkPayload) (ok : Bool) (h : ServerInv s) :
    ServerInv (s.handle_framebuffer_link cid payload ok).1 := by
  unfold ShiftServer.handle_framebuffer_link
  cases hc : alookup s.connected_clients cid with
  | none => simp only [hc]; exact h
  | some client =>
    simp only [hc]
    cases hs : client.session_id with
    | none => simp only [hs]; exact h
    | some sid =>
      simp only [hs]
      cases ok with
      | false => exact h
      | true =>
        cases hm : payload.monitor_id with
        | none => simp only [hm]; exact h
        | some mid =>
          simp only [hm]
          exact serverInv_fb_reset s sid mid _ rfl rfl rfl rfl h

/-- Purging every record of one monitor preserves the invariant. -/
theorem serverInv_purge_monitor (s : ShiftServer) (mid : MonitorId) (s' : ShiftServer)
    (hpend : s'.pending_buffer_requests = s.pending_buffer_requests.filter
      (fun p => decide (p.monitor_id ≠ mid)))
    (hwait : s'.waiting_flip = s.waiting_flip.filter
      (fun p => decide (p.monitor_id ≠ mid)))
    (hfront : s'.front_buffers = s.front_buffers.filter
      (fun e => decide (e.1.2 ≠ mid)))
    (hown : s'.buffer_ownership = s.buffer_ownership.filter
      (fun e => decide (e.1.2.1 ≠ mid)))
    (h : ServerInv s) : ServerInv s' := by
  have howner : ∀ k : SlotTriple,
      ownerOf s' k = if k.2.1 ≠ mid then ownerOf s k else .client := by
    intro k
    unfold ownerOf
    rw [hown, alookup_filter_key s.buffer_ownership (fun key => decide (key.2.1 ≠ mid)) k]
    by_cases hk : k.2.1 ≠ mid
    · rw [if_pos (by simp only [decide_eq_true_eq]; exact hk), if_pos hk]
    · rw [if_neg (by simp only [decide_eq_true_eq, Bool.not_eq_true]; exact hk), if_neg hk]
      rfl
  have hwaitmem : ∀ k : SlotTriple, InWaiting s' k ↔ (InWaiting s k ∧ k.2.1 ≠ mid) := by
    intro k
    rw [inWaiting_iff, inWaiting_iff]
    constructor
    · rintro ⟨p, hp, rfl⟩
      rw [hwait, List.mem_filter] at hp
      obtain ⟨hmem, hpred⟩ := hp
      simp only [decide_eq_true_eq] at hpred
      exact ⟨⟨p, hmem, rfl⟩, hpred⟩
    · rintro ⟨⟨p, hp, rfl⟩, hne⟩
      refine ⟨p, ?_, rfl⟩
      rw [hwait, List.mem_filter]
      exact ⟨hp, by simpa [flipTriple] using hne⟩
  have hfrontmem : ∀ k : SlotTriple, IsFront s' k ↔ (IsFront s k ∧ k.2.1 ≠ mid) := by
    intro k
    unfold IsFront
    rw [hfront,
      alookup_filter_key s.front_buffers (fun key => decide (key.2 ≠ mid)) (k.1, k.2.1)]
    by_cases hk : k.2.1 ≠ mid
    · rw [if_pos (by simp only [decide_eq_true_eq]; exact hk)]
      simp [hk]
    · rw [if_neg (by simp only [decide_eq_true_eq, Bool.not_eq_true]; exact hk)]
      simp [hk]
  constructor
  · intro k
    rw [howner k, hwaitmem k, hfrontmem k]
    by_cases hk : k.2.1 ≠ mid
    · rw [if_pos hk, h.own_iff k]
      tauto
    · rw [if_neg hk]
      constructor
      · intro hcs
        exact absurd hcs (by decide)
      · rintro (⟨_, hne⟩ | ⟨_, hne⟩) <;> exact absurd hne hk
  · intro p hp
    rw [hpend, List.mem_filter] at hp
    obtain ⟨hmem, hpred⟩ := hp
    simp only [decide_eq_true_eq] at hpred
    rw [howner (reqTriple p), if_pos (show (reqTriple p).2.1 ≠ mid from hpred)]
    exact h.pending_client p hmem
  · intro p hp
    rw [hwait, List.mem_filter] at hp
    obtain ⟨hmem, hpred⟩ := hp
    simp only [decide_eq_true_eq] at hpred
    rw [hfront, alookup_filter_key s.front_buffers (fun key => decide (key.2 ≠ mid))
      (p.session_id, p.monitor_id),
      if_pos (by simp only [decide_eq_true_eq]; exact hpred)]
    exact h.waiting_not_front p hmem
  · rw [hwait]
    exact List.Nodup.sublist ((List.filter_sublist s.waiting_flip).map flipTriple)
      h.waiting_nodup
  · rw [hpend]
    exact List.Nodup.sublist
      ((List.filter_sublist s.pending_buffer_requests).map reqTriple) h.pending_nodup

/-- handle_monitor_offline preserves the invariant. -/
theorem serverInv_handle_monitor_offline (s : ShiftServer) (mid : MonitorId)
    (h : ServerInv s) : ServerInv (s.handle_monitor_offline mid).1 :=
  serverInv_purge_monitor s mid _ rfl rfl rfl rfl h

theorem alookup_ainsert_self [DecidableEq κ] (m : List (κ × α)) (k : κ) (v : α) :
    alookup (ainsert m k v) k = some v := by
  rw [alookup_ainsert, if_pos rfl]

theorem alookup_ainsert_ne [DecidableEq κ] (m : List (κ × α)) (k k' : κ) (v : α)
    (h : k ≠ k') : alookup (ainsert m k v) k' = alookup m k' := by
  rw [alookup_ainsert, if_neg h]

theorem inWaiting_of_mem (s : ShiftServer) (p : PendingFlip) (hp : p ∈ s.waiting_flip) :
    InWaiting s (flipTriple p) :=
  List.mem_map_of_mem flipTriple hp

/-- The state transformation of a matched BufferRequestAck preserves the
invariant: the request leaves the pending list, the slot becomes
Compositor-owned, and a waiting flip entry is appended. -/
theorem serverInv_ack_mid (s : ShiftServer) (sid : SessionId) (mid : MonitorId)
    (b : BufferIndex) (pending : PendingBufferRequest) (rest : List PendingBufferRequest)
    (hex : extractFirst (fun p =>
        decide (p.session_id = sid ∧ p.monitor_id = mid ∧ p.buffer = b))
      s.pending_buffer_requests = some (pending, rest))
    (h : ServerInv s) :
    ServerInv { s with
      pending_buffer_requests := rest,
      buffer_ownership := ainsert s.buffer_ownership (sid, mid, b) .shift,
      waiting_flip := s.waiting_flip ++ [⟨sid, mid, b⟩],
      swap_buffers_received := saturating_add_u64 s.swap_buffers_received 1 } := by
  obtain ⟨hpred, hmem, hsub⟩ := extractFirst_spec _ _ _ _ hex
  simp only [decide_eq_true_eq] at hpred
  have hperm := extractFirst_perm _ _ _ _ hex
  have ht0 : reqTriple pending = (sid, mid, b) := by
    simp [reqTriple, hpred.1, hpred.2.1, hpred.2.2]
  have hcl : ownerOf s (sid, mid, b) = .client := ht0 ▸ h.pending_client pending hmem
  have hnwf := not_waiting_not_front_of_pending s h pending hmem
  have hnw : ¬InWaiting s (sid, mid, b) := ht0 ▸ hnwf.1
  have hnf : ¬IsFront s (sid, mid, b) := ht0 ▸ hnwf.2
  have hpermmap : (s.pending_buffer_requests.map reqTriple).Perm
      ((sid, mid, b) :: rest.map reqTriple) := by
    have := hperm.map reqTriple
    rw [List.map_cons, ht0] at this
    exact this
  have hnodup_cons : (((sid, mid, b) : SlotTriple) :: rest.map reqTriple).Nodup :=
    hpermmap.nodup_iff.mp h.pending_nodup
  have hk0_not_rest : ((sid, mid, b) : SlotTriple) ∉ rest.map reqTriple :=
    (List.nodup_cons.mp hnodup_cons).1
  have hrest_nodup : (rest.map reqTriple).Nodup := (List.nodup_cons.mp hnodup_cons).2
  have hown' : ∀ k : SlotTriple,
      ownerOf { s with
        pending_buffer_requests := rest,
        buffer_ownership := ainsert s.buffer_ownership (sid, mid, b) .shift,
        waiting_flip := s.waiting_flip ++ [⟨sid, mid, b⟩],
        swap_buffers_received := saturating_add_u64 s.swap_buffers_received 1 } k =
        if ((sid, mid, b) : SlotTriple) = k then .shift else ownerOf s k := by
    intro k
    unfold ownerOf
    simp only
    rw [alookup_ainsert]
    by_cases hk : ((sid, mid, b) : SlotTriple) = k
    · rw [if_pos hk, if_pos hk]
      rfl
    · rw [if_neg hk, if_neg hk]
  have hwait' : ∀ k : SlotTriple,
      (k ∈ (s.waiting_flip ++ [(⟨sid, mid, b⟩ : PendingFlip)]).map flipTriple) ↔
        (InWaiting s k ∨ k = (sid, mid, b)) := by
    intro k
    rw [List.map_append, List.mem_append]
    unfold InWaiting
    simp [flipTriple, eq_comm]
  constructor
  · intro k
    rw [hown' k]
    show _ ↔ (_ ∈ _ ∨ _)
    rw [hwait' k]
    by_cases hk : ((sid, mid, b) : SlotTriple) = k
    · rw [if_pos hk]
      simp [hk.symm]
    · rw [if_neg hk]
      show ownerOf s k = .shift ↔ _
      rw [h.own_iff k]
      have : ¬(k = ((sid, mid, b) : SlotTriple)) := fun hc => hk hc.symm
      constructor
      · rintro (hw | hf)
        · exact Or.inl (Or.inl hw)
        · exact Or.inr hf
      · rintro ((hw | hkk) | hf)
        · exact Or.inl hw
        · exact absurd hkk this
        · exact Or.inr hf
  · intro p hp
    have hpmem : p ∈ s.pending_buffer_requests :=
      hperm.symm.subset (List.mem_cons_of_mem _ hp)
    have hne : ((sid, mid, b) : SlotTriple) ≠ reqTriple p := by
      intro hc
      exact hk0_not_rest (hc ▸ List.mem_map_of_mem reqTriple hp)
    rw [hown' (reqTriple p), if_neg hne]
    exact h.pending_client p hpmem
  · intro p hp
    rw [List.mem_append] at hp
    show alookup s.front_buffers _ ≠ _
    cases hp with
    | inl hp => exact h.waiting_not_front p hp
    | inr hp =>
      rw [List.mem_singleton] at hp
      subst hp
      intro hc
      exact hnf hc
  · show ((s.waiting_flip ++ [(⟨sid, mid, b⟩ : PendingFlip)]).map flipTriple).Nodup
    rw [List.map_append, List.map_singleton]
    rw [List.nodup_append]
    refine ⟨h.waiting_nodup, List.nodup_singleton _, ?_⟩
    intro t ht ht0
    rw [List.mem_singleton] at ht0
    subst ht0
    exact hnw ht
  · exact hrest_nodup

/-- handle_buffer_request_ack preserves the invariant. -/
theorem serverInv_handle_buffer_request_ack (s : ShiftServer) (sid : SessionId)
    (mid : MonitorId) (b : BufferIndex) (ok : Bool) (h : ServerInv s) :
    ServerInv (s.handle_buffer_request_ack sid mid b ok).1 := by
  unfold ShiftServer.handle_buffer_request_ack
  cases hex : extractFirst (fun p =>
      decide (p.session_id = sid ∧ p.monitor_id = mid ∧ p.buffer = b))
      s.pending_buffer_requests with
  | none => simp only [hex]; exact h
  | some pr =>
    obtain ⟨pending, rest⟩ := pr
    simp only [hex]
    have hmid := serverInv_ack_mid s sid mid b pending rest hex h
    split
    · exact hmid
    · cases ok with
      | true => exact hmid
      | false => exact serverInv_disconnect _ _ hmid

/-- handle_buffer_request_rejected preserves the invariant. -/
theorem serverInv_handle_buffer_request_rejected (s : ShiftServer) (sid : SessionId)
    (mid : MonitorId) (b : BufferIndex) (reason : String) (h : ServerInv s) :
    ServerInv (s.handle_buffer_request_rejected sid mid b reason).1 := by
  unfold ShiftServer.handle_buffer_request_rejected
  cases hex : extractFirst (fun p =>
      decide (p.session_id = sid ∧ p.monitor_id = mid ∧ p.buffer = b))
      s.pending_buffer_requests with
  | none => simp only [hex]; exact h
  | some pr =>
    obtain ⟨pending, rest⟩ := pr
    simp only [hex]
    obtain ⟨hpred, hmem, hsub⟩ := extractFirst_spec _ _ _ _ hex
    have hmid : ServerInv { s with pending_buffer_requests := rest } := by
      constructor
      · intro k
        exact h.own_iff k
      · intro p hp
        exact h.pending_client p (hsub.subset hp)
      · intro p hp
        exact h.waiting_not_front p hp
      · exact h.waiting_nodup
      · exact List.Nodup.sublist (hsub.map reqTriple) h.pending_nodup
    split
    · exact hmid
    · exact hmid

theorem triple_eta (k : SlotTriple) : k = (k.1, k.2.1, k.2.2) := rfl

theorem pair_of_triple_eq (k : SlotTriple) (a : SessionId) (m : MonitorId)
    (hp : ((a, m) : SessionId × MonitorId) = (k.1, k.2.1)) :
    k.1 = a ∧ k.2.1 = m :=
  ⟨((Prod.ext_iff.mp hp).1).symm, ((Prod.ext_iff.mp hp).2).symm⟩

/-- The page flip install step with no previous front buffer preserves the
invariant. -/
theorem serverInv_flip_install_none (s : ShiftServer) (active : SessionId)
    (monitor : MonitorId) (pending : PendingFlip) (rest : List PendingFlip)
    (s' : ShiftServer)
    (hex : extractFirst (fun p =>
        decide (p.session_id = active ∧ p.monitor_id = monitor)) s.waiting_flip =
      some (pending, rest))
    (hold : alookup s.front_buffers (active, monitor) = none)
    (hwait : s'.waiting_flip = rest)
    (hfront : s'.front_buffers = ainsert s.front_buffers (active, monitor) pending.buffer)
    (hpend : s'.pending_buffer_requests = s.pending_buffer_requests)
    (hown : s'.buffer_ownership = s.buffer_ownership)
    (h : ServerInv s) : ServerInv s' := by
  obtain ⟨hpredb, hmem, hsubl⟩ := extractFirst_spec _ _ _ _ hex
  simp only [decide_eq_true_eq] at hpredb
  obtain ⟨hps, hpm⟩ := hpredb
  have hperm := extractFirst_perm _ _ _ _ hex
  have ht1 : flipTriple pending = (active, monitor, pending.buffer) := by
    simp [flipTriple, hps, hpm]
  have hpermmap : (s.waiting_flip.map flipTriple).Perm
      (((active, monitor, pending.buffer) : SlotTriple) :: rest.map flipTriple) := by
    have hx := hperm.map flipTriple
    rw [List.map_cons, ht1] at hx
    exact hx
  have hnodup_cons := hpermmap.nodup_iff.mp h.waiting_nodup
  have hk1_not_rest : ((active, monitor, pending.buffer) : SlotTriple) ∉ rest.map flipTriple :=
    (List.nodup_cons.mp hnodup_cons).1
  have hrest_nodup := (List.nodup_cons.mp hnodup_cons).2
  have hk1_waiting : InWaiting s (active, monitor, pending.buffer) :=
    ht1 ▸ inWaiting_of_mem s pending hmem
  have hwaitmem : ∀ k : SlotTriple, InWaiting s' k ↔ k ∈ rest.map flipTriple := by
    intro k
    unfold InWaiting
    rw [hwait]
  have hwmem : ∀ k : SlotTriple, k ≠ (active, monitor, pending.buffer) →
      (InWaiting s' k ↔ InWaiting s k) := by
    intro k hk
    rw [hwaitmem k]
    unfold InWaiting
    rw [hpermmap.mem_iff, List.mem_cons]
    constructor
    · intro hr
      exact Or.inr hr
    · rintro (hkk | hr)
      · exact absurd hkk hk
      · exact hr
  have howner : ∀ k : SlotTriple, ownerOf s' k = ownerOf s k := by
    intro k
    unfold ownerOf
    rw [hown]
  have hfrontmem : ∀ k : SlotTriple, IsFront s' k ↔
      (k = (active, monitor, pending.buffer) ∨
        ((k.1, k.2.1) ≠ ((active, monitor) : SessionId × MonitorId) ∧ IsFront s k)) := by
    intro k
    unfold IsFront
    rw [hfront, alookup_ainsert]
    by_cases hp : ((active, monitor) : SessionId × MonitorId) = (k.1, k.2.1)
    · rw [if_pos hp]
      obtain ⟨hka, hkm⟩ := pair_of_triple_eq k active monitor hp
      constructor
      · intro hsome
        injection hsome with hb
        left
        rw [triple_eta k, hka, hkm, ← hb]
      · rintro (hkk | ⟨hne, _⟩)
        · rw [hkk]
        · exact absurd
            (show ((k.1, k.2.1) : SessionId × MonitorId) = (active, monitor) by
              rw [hka, hkm]) hne
    · rw [if_neg hp]
      have hne : (k.1, k.2.1) ≠ ((active, monitor) : SessionId × MonitorId) :=
        fun hc => hp hc.symm
      constructor
      · intro hsome
        exact Or.inr ⟨hne, hsome⟩
      · rintro (hkk | ⟨_, hf⟩)
        · subst hkk
          exact absurd rfl hp
        · exact hf
  constructor
  · intro k
    rw [howner k, hfrontmem k]
    by_cases hk : k = ((active, monitor, pending.buffer) : SlotTriple)
    · subst hk
      rw [h.own_iff _]
      constructor
      · intro _
        exact Or.inr (Or.inl rfl)
      · intro _
        exact Or.inl hk1_waiting
    · rw [hwmem k hk, h.own_iff k]
      constructor
      · rintro (hw | hf)
        · exact Or.inl hw
        · by_cases hp : ((k.1, k.2.1) : SessionId × MonitorId) = (active, monitor)
          · exfalso
            unfold IsFront at hf
            rw [hp, hold] at hf
            exact Option.noConfusion hf
          · exact Or.inr (Or.inr ⟨hp, hf⟩)
      · rintro (hw | (hkk | ⟨_, hf⟩))
        · exact Or.inl hw
        · exact absurd hkk hk
        · exact Or.inr hf
  · intro p hp
    rw [hpend] at hp
    rw [howner (reqTriple p)]
    exact h.pending_client p hp
  · intro p hp
    rw [hwait] at hp
    have hpw : p ∈ s.waiting_flip := hperm.symm.subset (List.mem_cons_of_mem _ hp)
    rw [hfront, alookup_ainsert]
    by_cases hpp : ((active, monitor) : SessionId × MonitorId) = (p.session_id, p.monitor_id)
    · rw [if_pos hpp]
      intro hc
      injection hc with hb
      apply hk1_not_rest
      obtain ⟨hpa, hpmm⟩ := pair_of_triple_eq (flipTriple p) active monitor (by
        simpa [flipTriple] using hpp)
      have : flipTriple p = (active, monitor, pending.buffer) := by
        rw [triple_eta (flipTriple p)]
        simp only [flipTriple] at hpa hpmm ⊢
        rw [hpa, hpmm, hb]
      exact this ▸ List.mem_map_of_mem flipTriple hp
    · rw [if_neg hpp]
      exact h.waiting_not_front p hpw
  · rw [hwait]
    exact hrest_nodup
  · rw [hpend]
    exact h.pending_nodup

/-- The page flip install step that evicts a previous front buffer preserves
the invariant. -/
theorem serverInv_flip_install_some (s : ShiftServer) (active : SessionId)
    (monitor : MonitorId) (pending : PendingFlip) (rest : List PendingFlip)
    (released : BufferIndex) (s' : ShiftServer)
    (hex : extractFirst (fun p =>
        decide (p.session_id = active ∧ p.monitor_id = monitor)) s.waiting_flip =
      some (pending, rest))
    (hold : alookup s.front_buffers (active, monitor) = some released)
    (hwait : s'.waiting_flip = rest)
    (hfront : s'.front_buffers = ainsert s.front_buffers (active, monitor) pending.buffer)
    (hpend : s'.pending_buffer_requests = s.pending_buffer_requests)
    (hown : s'.buffer_ownership =
      ainsert s.buffer_ownership (active, monitor, released) .client)
    (h : ServerInv s) : ServerInv s' := by
  obtain ⟨hpredb, hmem, hsubl⟩ := extractFirst_spec _ _ _ _ hex
  simp only [decide_eq_true_eq] at hpredb
  obtain ⟨hps, hpm⟩ := hpredb
  have hperm := extractFirst_perm _ _ _ _ hex
  have ht1 : flipTriple pending = (active, monitor, pending.buffer) := by
    simp [flipTriple, hps, hpm]
  have hpermmap : (s.waiting_flip.map flipTriple).Perm
      (((active, monitor, pending.buffer) : SlotTriple) :: rest.map flipTriple) := by
    have hx := hperm.map flipTriple
    rw [List.map_cons, ht1] at hx
    exact hx
  have hnodup_cons := hpermmap.nodup_iff.mp h.waiting_nodup
  have hk1_not_rest : ((active, monitor, pending.buffer) : SlotTriple) ∉ rest.map flipTriple :=
    (List.nodup_cons.mp hnodup_cons).1
  have hrest_nodup := (List.nodup_cons.mp hnodup_cons).2
  have hk1_waiting : InWaiting s (active, monitor, pending.buffer) :=
    ht1 ▸ inWaiting_of_mem s pending hmem
  have hnotfront : alookup s.front_buffers (active, monitor) ≠ some pending.buffer := by
    have hx := h.waiting_not_front pending hmem
    rwa [hps, hpm] at hx
  have hrelne : released ≠ pending.buffer := by
    intro hc
    rw [hold] at hnotfront
    exact hnotfront (by rw [hc])
  have hk2_not_waiting : ¬InWaiting s (active, monitor, released) := by
    rw [inWaiting_iff]
    rintro ⟨w, hw, hwt⟩
    have hwa : w.session_id = active := congrArg Prod.fst hwt
    have hwm : w.monitor_id = monitor := congrArg (fun t => t.2.1) hwt
    have hwb : w.buffer = released := congrArg (fun t => t.2.2) hwt
    have := h.waiting_not_front w hw
    rw [hwa, hwm, hwb, hold] at this
    exact this rfl
  have hwaitmem : ∀ k : SlotTriple, InWaiting s' k ↔ k ∈ rest.map flipTriple := by
    intro k
    unfold InWaiting
    rw [hwait]
  have hwmem : ∀ k : SlotTriple, k ≠ (active, monitor, pending.buffer) →
      (InWaiting s' k ↔ InWaiting s k) := by
    intro k hk
    rw [hwaitmem k]
    unfold InWaiting
    rw [hpermmap.mem_iff, List.mem_cons]
    constructor
    · intro hr
      exact Or.inr hr
    · rintro (hkk | hr)
      · exact absurd hkk hk
      · exact hr
  have howner : ∀ k : SlotTriple,
      ownerOf s' k =
        if ((active, monitor, released) : SlotTriple) = k then .client
        else ownerOf s k := by
    intro k
    unfold ownerOf
    rw [hown, alookup_ainsert]
    by_cases hk : ((active, monitor, released) : SlotTriple) = k
    · rw [if_pos hk, if_pos hk]
      rfl
    · rw [if_neg hk, if_neg hk]
  have hfrontmem : ∀ k : SlotTriple, IsFront s' k ↔
      (k = (active, monitor, pending.buffer) ∨
        ((k.1, k.2.1) ≠ ((active, monitor) : SessionId × MonitorId) ∧ IsFront s k)) := by
    intro k
    unfold IsFront
    rw [hfront, alookup_ainsert]
    by_cases hp : ((active, monitor) : SessionId × MonitorId) = (k.1, k.2.1)
    · rw [if_pos hp]
      obtain ⟨hka, hkm⟩ := pair_of_triple_eq k active monitor hp
      constructor
      · intro hsome
        injection hsome with hb
        left
        rw [triple_eta k, hka, hkm, ← hb]
      · rintro (hkk | ⟨hne, _⟩)
        · rw [hkk]
        · exact absurd
            (show ((k.1, k.2.1) : SessionId × MonitorId) = (active, monitor) by
              rw [hka, hkm]) hne
    · rw [if_neg hp]
      have hne : (k.1, k.2.1) ≠ ((active, monitor) : SessionId × MonitorId) :=
        fun hc => hp hc.symm
      constructor
      · intro hsome
        exact Or.inr ⟨hne, hsome⟩
      · rintro (hkk | ⟨_, hf⟩)
        · subst hkk
          exact absurd rfl hp
        · exact hf
  have hk2ne1 : ((active, monitor, released) : SlotTriple) ≠ (active, monitor, pending.buffer) := by
    intro hc
    exact hrelne (congrArg (fun t => t.2.2) hc)
  constructor
  · intro k
    rw [howner k, hfrontmem k]
    by_cases hk2 : ((active, monitor, released) : SlotTriple) = k
    · rw [if_pos hk2]
      subst hk2
      constructor
      · intro hcs
        exact absurd hcs (by decide)
      · rintro (hw | (hkk | ⟨hne, _⟩))
        · exfalso
          apply hk2_not_waiting
          rw [hwaitmem _] at hw
          unfold InWaiting
          rw [hpermmap.mem_iff, List.mem_cons]
          exact Or.inr hw
        · exact absurd hkk hk2ne1
        · exact absurd rfl hne
    · rw [if_neg hk2]
      by_cases hk : k = ((active, monitor, pending.buffer) : SlotTriple)
      · subst hk
        rw [h.own_iff _]
        constructor
        · intro _
          exact Or.inr (Or.inl rfl)
        · intro _
          exact Or.inl hk1_waiting
      · rw [hwmem k hk, h.own_iff k]
        constructor
        · rintro (hw | hf)
          · exact Or.inl hw
          · by_cases hp : ((k.1, k.2.1) : SessionId × MonitorId) = (active, monitor)
            · exfalso
              unfold IsFront at hf
              rw [hp, hold] at hf
              injection hf with hb
              apply hk2
              rw [triple_eta k, (pair_of_triple_eq k active monitor hp.symm).1,
                (pair_of_triple_eq k active monitor hp.symm).2, hb]
            · exact Or.inr (Or.inr ⟨hp, hf⟩)
        · rintro (hw | (hkk | ⟨_, hf⟩))
          · exact Or.inl hw
          · exact absurd hkk hk
          · exact Or.inr hf
  · intro p hp
    rw [hpend] at hp
    rw [howner (reqTriple p)]
    by_cases hk : ((active, monitor, released) : SlotTriple) = reqTriple p
    · rw [if_pos hk]
    · rw [if_neg hk]
      exact h.pending_client p hp
  · intro p hp
    rw [hwait] at hp
    have hpw : p ∈ s.waiting_flip := hperm.symm.subset (List.mem_cons_of_mem _ hp)
    rw [hfront, alookup_ainsert]
    by_cases hpp : ((active, monitor) : SessionId × MonitorId) = (p.session_id, p.monitor_id)
    · rw [if_pos hpp]
      intro hc
      injection hc with hb
      apply hk1_not_rest
      obtain ⟨hpa, hpmm⟩ := pair_of_triple_eq (flipTriple p) active monitor (by
        simpa [flipTriple] using hpp)
      have : flipTriple p = (active, monitor, pending.buffer) := by
        rw [triple_eta (flipTriple p)]
        simp only [flipTriple] at hpa hpmm ⊢
        rw [hpa, hpmm, hb]
      exact this ▸ List.mem_map_of_mem flipTriple hp
    · rw [if_neg hpp]
      exact h.waiting_not_front p hpw
  · rw [hwait]
    exact hrest_nodup
  · rw [hpend]
    exact h.pending_nodup

/-- One page flip loop iteration preserves the invariant. -/
theorem serverInv_page_flip_step (active : SessionId)
    (acc : ShiftServer × List BufferRelease) (monitor : MonitorId)
    (h : ServerInv acc.1) :
    ServerInv (ShiftServer.page_flip_step active acc monitor).1 := by
  obtain ⟨s, releases⟩ := acc
  unfold ShiftServer.page_flip_step
  cases hex : extractFirst (fun p =>
      decide (p.session_id = active ∧ p.monitor_id = monitor)) s.waiting_flip with
  | none => simp only [hex]; exact h
  | some pr =>
    obtain ⟨pending, rest⟩ := pr
    simp only [hex]
    cases hold : alookup s.front_buffers (active, monitor) with
    | none =>
      simp only [hold]
      exact serverInv_flip_install_none s active monitor pending rest _ hex hold
        rfl rfl rfl rfl h
    | some released =>
      simp only [hold]
      exact serverInv_flip_install_some s active monitor pending rest released _ hex hold
        rfl rfl rfl rfl h

/-- The page flip fold over the flipped monitors preserves the invariant. -/
theorem serverInv_foldl_page_flip (active : SessionId) (monitors : List MonitorId) :
    ∀ acc : ShiftServer × List BufferRelease, ServerInv acc.1 →
      ServerInv (monitors.foldl (ShiftServer.page_flip_step active) acc).1 := by
  induction monitors with
  | nil => intro acc h; exact h
  | cons m rest ih =>
    intro acc h
    exact ih _ (serverInv_page_flip_step active acc m h)

/-- handle_page_flip preserves the invariant. -/
theorem serverInv_handle_page_flip (s : ShiftServer) (monitors : List MonitorId)
    (ok : Bool) (h : ServerInv s) : ServerInv (s.handle_page_flip monitors ok).1 := by
  unfold ShiftServer.handle_page_flip
  by_cases hne : monitors = []
  · rw [if_pos hne]; exact h
  · rw [if_neg hne]
    cases hcur : s.current_session with
    | none => simp only [hcur]; exact h
    | some active =>
      simp only [hcur]
      cases hfind : ShiftServer.find_bound_client s.connected_clients active with
      | none => simp only [hfind]; exact h
      | some pr =>
        obtain ⟨cid, c⟩ := pr
        simp only [hfind]
        have hfold := serverInv_foldl_page_flip active monitors (s, []) h
        generalize hr : List.foldl (ShiftServer.page_flip_step active) (s, []) monitors = r at hfold ⊢
        split
        · exact hfold
        · cases ok with
          | true =>
            rw [if_pos rfl]
            exact serverInv_congr r.1 _ rfl rfl rfl rfl hfold
          | false => exact hfold

/-- handle_client_message preserves the invariant. -/
theorem serverInv_handle_client_message (s : ShiftServer) (cid : ClientId)
    (msg : C2SMsg) (ok : Bool) (h : ServerInv s) :
    ServerInv (s.handle_client_message cid msg ok).1 := by
  cases msg with
  | shutdown => exact serverInv_disconnect s cid h
  | auth tok => exact serverInv_handle_auth s cid tok ok h
  | create_session req ftok fid =>
    exact serverInv_handle_create_session s cid req ftok fid ok h
  | buffer_request mid b fence =>
    exact serverInv_handle_buffer_request s cid mid b fence ok h
  | framebuffer_link payload => exact serverInv_handle_framebuffer_link s cid payload ok h

/-- handle_render_event preserves the invariant. -/
theorem serverInv_handle_render_event (s : ShiftServer) (event : RenderEvt)
    (ok : Bool) (h : ServerInv s) : ServerInv (s.handle_render_event event ok).1 := by
  cases event with
  | started monitors => exact serverInv_congr s _ rfl rfl rfl rfl h
  | monitor_online monitor => exact serverInv_congr s _ rfl rfl rfl rfl h
  | monitor_offline mid => exact serverInv_handle_monitor_offline s mid h
  | fatal_error reason => exact h
  | page_flip monitors => exact serverInv_handle_page_flip s monitors ok h
  | buffer_request_ack sid mid b =>
    exact serverInv_handle_buffer_request_ack s sid mid b ok h
  | buffer_request_rejected sid mid b reason =>
    exact serverInv_handle_buffer_request_rejected s sid mid b reason h

/-- Every event loop step preserves the invariant. -/
theorem serverInv_applyEv (s : ShiftServer) (e : Ev) (h : ServerInv s) :
    ServerInv (applyEv s e).1 := by
  cases e with
  | accept cid => exact serverInv_congr s _ rfl rfl rfl rfl h
  | add_initial tok fid => exact serverInv_congr s _ rfl rfl rfl rfl h
  | client cid msg ok => exact serverInv_handle_client_message s cid msg ok h
  | render event ok => exact serverInv_handle_render_event s event ok h

theorem serverInv_runEvents (es : List Ev) :
    ∀ s : ShiftServer, ServerInv s → ServerInv (runEvents s es) := by
  induction es with
  | nil => intro s h; exact h
  | cons e rest ih =>
    intro s h
    exact ih _ (serverInv_applyEv s e h)

theorem serverInv_initial : ServerInv ShiftServer.initial := by
  constructor
  · intro k
    have hcl : ownerOf ShiftServer.initial k = .client := rfl
    rw [hcl]
    constructor
    · intro hc
      exact absurd hc (by decide)
    · rintro (hw | hf)
      · exact absurd hw (by simp [InWaiting, ShiftServer.initial])
      · exact absurd hf (by simp [IsFront, ShiftServer.initial, alookup])
  · intro p hp
    simp [ShiftServer.initial] at hp
  · intro p hp
    simp [ShiftServer.initial] at hp
  · simp [ShiftServer.initial]
  · simp [ShiftServer.initial]

theorem serverInv_reachable (s : ShiftServer) (h : Reachable s) : ServerInv s := by
  obtain ⟨es, hes⟩ := h
  rw [← hes]
  exact serverInv_runEvents es _ serverInv_initial

/-! ## Claim C1: the ownership invariant -/

/-- Claim C1 as stated is false: after a validated BUFFER_REQUEST that the
renderer has not yet acknowledged, the request sits in the pending-request
set while the ledger still records the slot as Client-owned.  Ownership moves
to the compositor only on BufferRequestAck. -/
theorem c1_counterexample :
    Reachable (runEvents ShiftServer.initial c1_events) ∧
    ¬ClaimedOwnershipInv (runEvents ShiftServer.initial c1_events) := by
  constructor
  · exact ⟨c1_events, rfl⟩
  · intro hclaim
    have hpend : InPending (runEvents ShiftServer.initial c1_events)
        ((0, 5, .zero) : SlotTriple) := by
      unfold InPending
      decide
    have hshift := (hclaim (0, 5, .zero)).mpr (Or.inl hpend)
    have hcl : ownerOf (runEvents ShiftServer.initial c1_events)
        ((0, 5, .zero) : SlotTriple) = .client := by
      unfold ownerOf
      decide
    rw [hcl] at hshift
    exact absurd hshift (by decide)

/-- Claim C1, amended: in every reachable state of the control plane, the
ledger records Compositor ownership for a (session, monitor, slot) triple iff
the triple is in the waiting-flip set or is the front buffer for that
(session, monitor); triples named only by the pending-request set are still
Client-owned (ownership moves to the compositor on BufferRequestAck, not on
BUFFER_REQUEST). -/
theorem c1_ownership_invariant (s : ShiftServer) (h : Reachable s) :
    OwnershipInv s := by
  have hinv := serverInv_reachable s h
  exact ⟨hinv.own_iff, hinv.pending_client⟩

/-- Witness for c1_ownership_invariant at the initial state. -/
theorem c1_ownership_invariant_witness : OwnershipInv ShiftServer.initial :=
  c1_ownership_invariant ShiftServer.initial ⟨[], rfl⟩

/-! ## Claim C2: BUFFER_REQUEST validation -/

/-- Claim C2: on BUFFER_REQUEST, an unbound client is answered with ERROR
forbidden; a bound client is answered with ERROR ownership_violation when the
slot is not Client-owned, and with ERROR buffer_request_inflight when a
request for the triple is already in flight; in all three cases the server
state is completely unchanged and no command is forwarded to the render
loop. -/
theorem c2_buffer_request_validation (s : ShiftServer) (client_id : ClientId)
    (c : ClientView) (monitor_id : MonitorId) (buffer : BufferIndex)
    (acquire_fence ok : Bool)
    (hc : alookup s.connected_clients client_id = some c) :
    (c.session_id = none →
      s.handle_client_message client_id (.buffer_request monitor_id buffer acquire_fence) ok =
        (s, ⟨[(client_id, .error "forbidden" none false)], []⟩)) ∧
    (∀ sid sess, c.session_id = some sid → alookup s.active_sessions sid = some sess →
      (ownerOf s (sess.id, monitor_id, buffer) ≠ .client →
        s.handle_client_message client_id
            (.buffer_request monitor_id buffer acquire_fence) ok =
          (s, ⟨[(client_id, .error "ownership_violation"
                  (some "requested buffer is not client-owned") false)], []⟩)) ∧
      (ownerOf s (sess.id, monitor_id, buffer) = .client →
        (∃ p ∈ s.pending_buffer_requests,
          p.session_id = sess.id ∧ p.monitor_id = monitor_id ∧ p.buffer = buffer) →
        s.handle_client_message client_id
            (.buffer_request monitor_id buffer acquire_fence) ok =
          (s, ⟨[(client_id, .error "buffer_request_inflight"
                  (some "buffer request already pending") false)], []⟩))) := by
  constructor
  · intro ha
    unfold ShiftServer.handle_client_message ShiftServer.handle_buffer_request
    simp only [hc, ha, Option.none_bind]
  · intro sid sess hsid hsess
    constructor
    · intro hv
      unfold ShiftServer.handle_client_message ShiftServer.handle_buffer_request
      simp only [hc, hsid, Option.some_bind, hsess]
      have hv' : (alookup s.buffer_ownership (sess.id, monitor_id, buffer)).getD
          BufferOwner.client ≠ BufferOwner.client := hv
      rw [if_pos hv']
    · intro hcl hex
      unfold ShiftServer.handle_client_message ShiftServer.handle_buffer_request
      simp only [hc, hsid, Option.some_bind, hsess]
      have hnot : ¬((alookup s.buffer_ownership (sess.id, monitor_id, buffer)).getD
          BufferOwner.client ≠ BufferOwner.client) := by
        intro hne
        exact hne hcl
      rw [if_neg hnot]
      have hany : (s.pending_buffer_requests.any fun p =>
          decide (p.session_id = sess.id ∧ p.monitor_id = monitor_id ∧
            p.buffer = buffer)) = true := by
        rw [List.any_eq_true]
        obtain ⟨p, hp, h3⟩ := hex
        exact ⟨p, hp, by simpa using h3⟩
      rw [if_pos hany]

/-- Witness for c2_buffer_request_validation: an accepted but unauthenticated
client is answered with forbidden. -/
theorem c2_buffer_request_validation_witness :
    ShiftServer.handle_client_message (ShiftServer.initial.handle_accept 0) 0
        (.buffer_request 1 .zero false) true =
      (ShiftServer.initial.handle_accept 0,
        ⟨[(0, .error "forbidden" none false)], []⟩) :=
  (c2_buffer_request_validation (ShiftServer.initial.handle_accept 0) 0 ⟨none⟩ 1
    .zero false true (by decide)).1 rfl

/-! ## Claim C4: AUTH handling -/

/-- Claim C4: AUTH with an unknown token is answered with AUTH_ERROR
not_found and changes nothing; AUTH with a pending token removes the token
(so a later AUTH with it is answered with AUTH_ERROR not_found), promotes the
session to Loading, registers it as active, and sends the client the
successful-auth reply. -/
theorem c4_auth (s : ShiftServer) (client_id : ClientId) (token : Token) :
    (∀ ok, alookup s.pending_sessions token = none →
      ∀ c, alookup s.connected_clients client_id = some c →
      s.handle_client_message client_id (.auth token) ok =
        (s, ⟨[(client_id, .auth_error .not_found)], []⟩)) ∧
    (∀ ps c s2 out, alookup s.pending_sessions token = some ps →
      alookup s.connected_clients client_id = some c →
      s.handle_client_message client_id (.auth token) true = (s2, out) →
      alookup s2.pending_sessions token = none ∧
      (∀ cid2 c2 ok2, alookup s2.connected_clients cid2 = some c2 →
        s2.handle_client_message cid2 (.auth token) ok2 =
          (s2, ⟨[(cid2, .auth_error .not_found)], []⟩)) ∧
      alookup s2.active_sessions ps.id = some ps.promote ∧
      ps.promote.lifecycle = .loading ∧
      (client_id, .bind_to_session ps.promote) ∈ out.to_clients) := by
  constructor
  · intro ok hn c hcc
    unfold ShiftServer.handle_client_message ShiftServer.handle_auth
    simp only [hn, hcc]
  · intro ps c s2 out hf hcc hres
    unfold ShiftServer.handle_client_message ShiftServer.handle_auth at hres
    simp only [hf, hcc, if_true] at hres
    have hfin : alookup
        (aeraseAll s.pending_sessions token) token = none := by
      rw [alookup_aeraseAll, if_pos rfl]
    by_cases hcond : ps.promote.role = Role.admin ∧ s.current_session = none
    · rw [if_pos hcond] at hres
      injection hres with h1 h2
      subst h1
      subst h2
      refine ⟨hfin, ?_, ?_, rfl, ?_⟩
      · intro cid2 c2 ok2 hc2
        unfold ShiftServer.handle_client_message ShiftServer.handle_auth
        simp only [ShiftServer.update_active_session] at hc2 ⊢
        simp only [hfin, hc2]
      · exact alookup_ainsert_self _ _ _
      · exact List.mem_singleton.mpr rfl
    · rw [if_neg hcond] at hres
      injection hres with h1 h2
      subst h1
      subst h2
      refine ⟨hfin, ?_, ?_, rfl, ?_⟩
      · intro cid2 c2 ok2 hc2
        unfold ShiftServer.handle_client_message ShiftServer.handle_auth
        simp only [hfin, hc2]
      · exact alookup_ainsert_self _ _ _
      · exact List.mem_singleton.mpr rfl

/-- Witness for c4_auth: the initial admin token authenticates and is
consumed. -/
theorem c4_auth_witness :
    alookup (ShiftServer.handle_client_message
        ((ShiftServer.initial.add_initial_session 7 3).handle_accept 0) 0
        (.auth 7) true).1.pending_sessions 7 = none :=
  ((c4_auth ((ShiftServer.initial.add_initial_session 7 3).handle_accept 0) 0 7).2
    ⟨3, .admin, some "Admin"⟩ ⟨none⟩ _ _ (by decide) (by decide) rfl).1

/-! ## Claim C9: active session switch frame conditions -/

/-- Claim C9: switching or clearing the active session sends exactly one
SetActiveSession command to the render loop and modifies only the
current-session field; all buffer bookkeeping, session tables, client table
and monitor map are unchanged. -/
theorem c9_update_active_session (s : ShiftServer) (next : Option SessionId) :
    s.update_active_session next =
      ({ s with current_session := next }, ⟨[], [.set_active_session next]⟩) ∧
    (s.update_active_session next).1.current_session = next ∧
    (s.update_active_session next).1.pending_buffer_requests = s.pending_buffer_requests ∧
    (s.update_active_session next).1.waiting_flip = s.waiting_flip ∧
    (s.update_active_session next).1.front_buffers = s.front_buffers ∧
    (s.update_active_session next).1.buffer_ownership = s.buffer_ownership ∧
    (s.update_active_session next).1.pending_sessions = s.pending_sessions ∧
    (s.update_active_session next).1.active_sessions = s.active_sessions ∧
    (s.update_active_session next).1.connected_clients = s.connected_clients ∧
    (s.update_active_session next).1.monitors = s.monitors :=
  ⟨rfl, rfl, rfl, rfl, rfl, rfl, rfl, rfl, rfl, rfl⟩

/-! ## Claim C10: unmatched render acknowledgements are ignored -/

/-- Claim C10: a BufferRequestAck or BufferRequestRejected event whose triple
matches no in-flight request leaves the whole server state unchanged and
sends nothing to any client or to the renderer. -/
theorem c10_unmatched_ack_ignored (s : ShiftServer) (session_id : SessionId)
    (monitor_id : MonitorId) (buffer : BufferIndex) (ok : Bool) (reason : String)
    (h : ∀ p ∈ s.pending_buffer_requests,
      ¬(p.session_id = session_id ∧ p.monitor_id = monitor_id ∧ p.buffer = buffer)) :
    s.handle_render_event (.buffer_request_ack session_id monitor_id buffer) ok =
      (s, noOut) ∧
    s.handle_render_event
        (.buffer_request_rejected session_id monitor_id buffer reason) ok =
      (s, noOut) := by
  have hex : extractFirst (fun p =>
      decide (p.session_id = session_id ∧ p.monitor_id = monitor_id ∧
        p.buffer = buffer)) s.pending_buffer_requests = none := by
    rw [extractFirst_eq_none]
    intro p hp
    simpa using h p hp
  constructor
  · unfold ShiftServer.handle_render_event ShiftServer.handle_buffer_request_ack
    simp only [hex]
  · unfold ShiftServer.handle_render_event ShiftServer.handle_buffer_request_rejected
    simp only [hex]

/-- Witness for c10_unmatched_ack_ignored on the initial state. -/
theorem c10_unmatched_ack_ignored_witness :
    ShiftServer.handle_render_event ShiftServer.initial
        (.buffer_request_ack 1 2 .zero) true = (ShiftServer.initial, noOut) :=
  (c10_unmatched_ack_ignored ShiftServer.initial 1 2 .zero true ""
    (by intro p hp; simp [ShiftServer.initial] at hp)).1

/-! ## Claim C7: renderer fence gating -/

/-- Claim C7: a SwapBuffers command naming a known monitor and a linked slot
is acknowledged with BufferRequestAck; with an acquire fence the slot is
recorded as pending while the current-drawn buffer stays unchanged, and the
fence event for that slot, whether signaled or failed, promotes it to the
current-drawn buffer; without a fence the slot becomes the current-drawn
buffer immediately. -/
theorem c7_fence_gating (r : RenderingLayer) (monitor_id : MonitorId)
    (buffer : BufferIndex) (session_id : SessionId) (fence : Bool)
    (hmon : (alookup r.known_monitors monitor_id).isSome = true)
    (hslot : (⟨monitor_id, session_id, buffer⟩ : SlotKey) ∈ r.slots) :
    (r.handle_command (.swap_buffers monitor_id buffer session_id fence)).2 =
      [.buffer_request_ack session_id monitor_id buffer] ∧
    (fence = true →
      alookup (r.handle_command
          (.swap_buffers monitor_id buffer session_id fence)).1.monitor_state
          (monitor_id, session_id) =
        some { current_buffer :=
                 ((alookup r.monitor_state
                   (monitor_id, session_id)).getD {}).current_buffer,
               pending_buffer := some buffer } ∧
      (∀ reason,
        alookup ((r.handle_command
            (.swap_buffers monitor_id buffer session_id fence)).1.handle_fence_event
              (.signaled ⟨monitor_id, session_id, buffer⟩)).monitor_state
            (monitor_id, session_id) =
          some { current_buffer := some buffer, pending_buffer := none } ∧
        alookup ((r.handle_command
            (.swap_buffers monitor_id buffer session_id fence)).1.handle_fence_event
              (.failed ⟨monitor_id, session_id, buffer⟩ reason)).monitor_state
            (monitor_id, session_id) =
          some { current_buffer := some buffer, pending_buffer := none })) ∧
    (fence = false →
      alookup (r.handle_command
          (.swap_buffers monitor_id buffer session_id fence)).1.monitor_state
          (monitor_id, session_id) =
        some { current_buffer := some buffer, pending_buffer := none }) := by
  have hsk : decide ((⟨monitor_id, session_id, buffer⟩ : SlotKey) ∈ r.slots) = true :=
    decide_eq_true hslot
  cases fence with
  | false =>
    refine ⟨?_, fun hft => absurd hft (by decide), fun hf2 => ?_⟩
    · simp [RenderingLayer.handle_command, hmon, hsk]
    · simp [RenderingLayer.handle_command, hmon, hsk, alookup_ainsert_self]
  | true =>
    refine ⟨?_, fun ht2 => ⟨?_, fun reason => ⟨?_, ?_⟩⟩,
      fun hff => absurd hff (by decide)⟩
    · simp [RenderingLayer.handle_command, hmon, hsk]
    · simp [RenderingLayer.handle_command, hmon, hsk, alookup_ainsert_self]
    · simp [RenderingLayer.handle_command, RenderingLayer.handle_fence_event,
        RenderingLayer.promote_pending, RenderingLayer.spawn_acquire_fence_waiter,
        hmon, hsk, alookup_ainsert_self]
    · simp [RenderingLayer.handle_command, RenderingLayer.handle_fence_event,
        RenderingLayer.promote_pending, RenderingLayer.spawn_acquire_fence_waiter,
        hmon, hsk, alookup_ainsert_self]

/-- Witness for c7_fence_gating: a fenced swap on a known monitor with a
linked slot is acknowledged. -/
theorem c7_fence_gating_witness :
    ((⟨[(1, ⟨1, 1920, 1080, 60, "m"⟩)], [], [⟨1, 2, .zero⟩], [], none⟩ :
        RenderingLayer).handle_command
          (.swap_buffers 1 .zero 2 true)).2 =
      [.buffer_request_ack 2 1 .zero] :=
  (c7_fence_gating ⟨[(1, ⟨1, 1920, 1080, 60, "m"⟩)], [], [⟨1, 2, .zero⟩], [], none⟩
    1 .zero 2 true (by decide) (by decide)).1

/-! ## Claim C8: page flip processing -/

/-- The page flip fold of the source refines the specification wording
claim_page_flip: the final waiting-flip list, front-buffer table and
ownership ledger are the ones claim_page_flip computes, and the release
records are appended to the accumulator in order. -/
theorem foldl_page_flip_spec (active : SessionId) (monitors : List MonitorId) :
    ∀ (s : ShiftServer) (acc : List BufferRelease),
      monitors.foldl (ShiftServer.page_flip_step active) (s, acc) =
        ({ s with
            waiting_flip := (claim_page_flip active monitors s.waiting_flip
              s.front_buffers s.buffer_ownership).1,
            front_buffers := (claim_page_flip active monitors s.waiting_flip
              s.front_buffers s.buffer_ownership).2.1,
            buffer_ownership := (claim_page_flip active monitors s.waiting_flip
              s.front_buffers s.buffer_ownership).2.2.1 },
         acc ++ (claim_page_flip active monitors s.waiting_flip
           s.front_buffers s.buffer_ownership).2.2.2) := by
  induction monitors with
  | nil =>
    intro s acc
    simp [claim_page_flip]
  | cons monitor rest ih =>
    intro s acc
    rw [List.foldl_cons]
    unfold ShiftServer.page_flip_step claim_page_flip
    cases hex : extractFirst (fun p =>
        decide (p.session_id = active ∧ p.monitor_id = monitor)) s.waiting_flip with
    | none =>
      simp only [hex]
      exact ih s acc
    | some pr =>
      obtain ⟨entry, rest2⟩ := pr
      simp only [hex]
      cases hold : alookup s.front_buffers (active, monitor) with
      | none =>
        simp only [hold]
        exact ih _ acc
      | some released =>
        simp only [hold]
        have step := ih { s with waiting_flip := rest2, front_buffers := ainsert s.front_buffers (active, monitor) entry.buffer, buffer_ownership := ainsert s.buffer_ownership (active, monitor, released) BufferOwner.client } (acc ++ [⟨monitor, released⟩])
        refine step.trans ?_
        simp [List.append_assoc]

/-- Claim C8: on PageFlip with a nonempty monitor list, an active session and
a bound client, the resulting waiting-flip list, front-buffer table and
ownership ledger are exactly those computed by the specification wording
claim_page_flip (earliest matching waiting entry installed as front, previous
front released to the client, unmatched monitors untouched), the
pending-request list is unchanged, no message is sent when no release record
accrued, and otherwise the accumulated releases go to the bound client in a
single buffer_release message. -/
theorem c8_page_flip (s : ShiftServer) (monitors : List MonitorId)
    (active : SessionId) (client_id : ClientId) (c : ClientView) (ok : Bool)
    (r1 : List PendingFlip) (r2 : List ((SessionId × MonitorId) × BufferIndex))
    (r3 : List (SlotTriple × BufferOwner)) (rel : List BufferRelease)
    (hne : monitors ≠ [])
    (hcur : s.current_session = some active)
    (hfind : ShiftServer.find_bound_client s.connected_clients active = some (client_id, c))
    (hr : claim_page_flip active monitors s.waiting_flip s.front_buffers
      s.buffer_ownership = (r1, r2, r3, rel)) :
    ((s.handle_render_event (.page_flip monitors) ok).1.waiting_flip = r1 ∧
     (s.handle_render_event (.page_flip monitors) ok).1.front_buffers = r2 ∧
     (s.handle_render_event (.page_flip monitors) ok).1.buffer_ownership = r3 ∧
     (s.handle_render_event (.page_flip monitors) ok).1.pending_buffer_requests =
       s.pending_buffer_requests) ∧
    (rel = [] → s.handle_render_event (.page_flip monitors) ok =
      ({ s with waiting_flip := r1, front_buffers := r2,
                buffer_ownership := r3 }, noOut)) ∧
    (rel ≠ [] → ok = true →
      (s.handle_render_event (.page_flip monitors) ok).2 =
        ⟨[(client_id, .buffer_release rel)], []⟩) := by
  have hfold := foldl_page_flip_spec active monitors s []
  rw [hr] at hfold
  have hmain : s.handle_render_event (.page_flip monitors) ok =
      (if rel = [] then
        ({ s with waiting_flip := r1, front_buffers := r2, buffer_ownership := r3 }, noOut)
       else if ok then
        ({ s with waiting_flip := r1, front_buffers := r2, buffer_ownership := r3, frame_done_emitted := saturating_add_u64 s.frame_done_emitted rel.length },
         ⟨[(client_id, .buffer_release rel)], []⟩)
       else
        ({ s with waiting_flip := r1, front_buffers := r2, buffer_ownership := r3 }, noOut)) := by
    unfold ShiftServer.handle_render_event ShiftServer.handle_page_flip
    simp only [hcur, hfind, hfold, List.nil_append, if_neg hne]
  rw [hmain]
  by_cases hrel : rel = []
  · rw [if_pos hrel]
    exact ⟨⟨rfl, rfl, rfl, rfl⟩, fun h2 => rfl, fun hcon h3 => absurd hrel hcon⟩
  · rw [if_neg hrel]
    cases ok with
    | true =>
      rw [if_pos rfl]
      exact ⟨⟨rfl, rfl, rfl, rfl⟩, fun h2 => absurd h2 hrel, fun h2 h3 => rfl⟩
    | false =>
      rw [if_neg (by decide)]
      exact ⟨⟨rfl, rfl, rfl, rfl⟩, fun h2 => absurd h2 hrel,
        fun h2 hok => absurd hok (by decide)⟩

/-- Witness for c8_page_flip: one flipped monitor with a matching waiting
entry and no previous front installs the slot as the new front. -/
theorem c8_page_flip_witness :
    (ShiftServer.handle_render_event { ShiftServer.initial with current_session := some 3, connected_clients := [(0, ⟨some 3⟩)], waiting_flip := [⟨3, 1, .zero⟩], buffer_ownership := [((3, 1, .zero), .shift)] } (.page_flip [1]) true).1.front_buffers = [((3, 1), .zero)] :=
  ((c8_page_flip { ShiftServer.initial with current_session := some 3, connected_clients := [(0, ⟨some 3⟩)], waiting_flip := [⟨3, 1, .zero⟩], buffer_ownership := [((3, 1, .zero), .shift)] } [1] 3 0 ⟨some 3⟩ true [] [((3, 1), .zero)] [((3, 1, .zero), .shift)] [] (by decide) rfl rfl rfl).1).2.1

/-! ## Claim C3: counting lemmas -/

theorem wcount_perm (sm : SessionId × MonitorId) {W W2 : List PendingFlip}
    (h : W.Perm W2) : wcount sm W = wcount sm W2 := by
  unfold wcount
  exact (h.filter _).length_eq

theorem wcount_cons (sm : SessionId × MonitorId) (p : PendingFlip)
    (W : List PendingFlip) :
    wcount sm (p :: W) =
      (if p.session_id = sm.1 ∧ p.monitor_id = sm.2 then 1 else 0) + wcount sm W := by
  unfold wcount
  rw [List.filter_cons]
  by_cases hp : p.session_id = sm.1 ∧ p.monitor_id = sm.2
  · simp [hp, Nat.add_comm]
  · simp [hp]

theorem wcount_append (sm : SessionId × MonitorId) (W : List PendingFlip)
    (p : PendingFlip) :
    wcount sm (W ++ [p]) =
      wcount sm W + (if p.session_id = sm.1 ∧ p.monitor_id = sm.2 then 1 else 0) := by
  unfold wcount
  rw [List.filter_append, List.length_append, List.filter_cons]
  by_cases hp : p.session_id = sm.1 ∧ p.monitor_id = sm.2
  · simp [hp]
  · simp [hp]

theorem wcount_filter (sm : SessionId × MonitorId) (W : List PendingFlip)
    (q : PendingFlip → Bool)
    (h : ∀ p, p.session_id = sm.1 → p.monitor_id = sm.2 → q p = true) :
    wcount sm (W.filter q) = wcount sm W := by
  unfold wcount
  rw [List.filter_filter]
  refine congrArg List.length (List.filter_congr ?_)
  intro p hp
  by_cases hps : p.session_id = sm.1 ∧ p.monitor_id = sm.2
  · simp [hps, h p hps.1 hps.2]
  · simp [hps]

theorem wcount_extract (sm : SessionId × MonitorId) (p : PendingFlip → Bool)
    (W : List PendingFlip) (entry : PendingFlip) (W2 : List PendingFlip)
    (h : extractFirst p W = some (entry, W2)) :
    wcount sm W =
      (if entry.session_id = sm.1 ∧ entry.monitor_id = sm.2 then 1 else 0) +
        wcount sm W2 := by
  rw [wcount_perm sm (extractFirst_perm p W entry W2 h)]
  exact wcount_cons sm entry W2

theorem fcount_of_some (sm : SessionId × MonitorId)
    (F : List ((SessionId × MonitorId) × BufferIndex)) (v : BufferIndex)
    (h : alookup F sm = some v) : fcount sm F = 1 := by
  unfold fcount
  rw [h]

theorem fcount_of_none (sm : SessionId × MonitorId)
    (F : List ((SessionId × MonitorId) × BufferIndex))
    (h : alookup F sm = none) : fcount sm F = 0 := by
  unfold fcount
  rw [h]

theorem fcount_ainsert_self (sm : SessionId × MonitorId)
    (F : List ((SessionId × MonitorId) × BufferIndex)) (v : BufferIndex) :
    fcount sm (ainsert F sm v) = 1 := by
  unfold fcount
  rw [alookup_ainsert, if_pos rfl]

theorem fcount_ainsert_ne (sm k : SessionId × MonitorId)
    (F : List ((SessionId × MonitorId) × BufferIndex)) (v : BufferIndex)
    (h : k ≠ sm) : fcount sm (ainsert F k v) = fcount sm F := by
  unfold fcount
  rw [alookup_ainsert, if_neg h]

theorem fcount_filter_key (sm : SessionId × MonitorId)
    (F : List ((SessionId × MonitorId) × BufferIndex))
    (q : (SessionId × MonitorId) → Bool) (h : q sm = true) :
    fcount sm (F.filter (fun e => q e.1)) = fcount sm F := by
  unfold fcount
  rw [alookup_filter_key, if_pos h]

theorem countRelEntries_cons (mid : MonitorId) (r : BufferRelease)
    (rest : List BufferRelease) :
    countRelEntries mid (r :: rest) =
      (if r.monitor_id = mid then 1 else 0) + countRelEntries mid rest := by
  unfold countRelEntries
  rw [List.filter_cons]
  by_cases hr : r.monitor_id = mid
  · simp [hr, Nat.add_comm]
  · simp [hr]

/-- Conservation of the pipeline measure through the page flip loop for the
active session: released records plus the remaining waiting and front counts
equal the waiting and front counts before the flip. -/
theorem claim_flip_meas_eq (sa : SessionId) (sb : MonitorId)
    (monitors : List MonitorId) :
    ∀ (W : List PendingFlip) (F : List ((SessionId × MonitorId) × BufferIndex))
      (O : List (SlotTriple × BufferOwner)),
      countRelEntries sb (claim_page_flip sa monitors W F O).2.2.2 +
        wcount (sa, sb) (claim_page_flip sa monitors W F O).1 +
        fcount (sa, sb) (claim_page_flip sa monitors W F O).2.1 =
      wcount (sa, sb) W + fcount (sa, sb) F := by
  induction monitors with
  | nil =>
    intro W F O
    simp [claim_page_flip, countRelEntries]
  | cons m rest ih =>
    intro W F O
    unfold claim_page_flip
    cases hex : extractFirst (fun p =>
        decide (p.session_id = sa ∧ p.monitor_id = m)) W with
    | none =>
      simp only [hex]
      exact ih W F O
    | some pr =>
      obtain ⟨entry, W2⟩ := pr
      simp only [hex]
      have hw := wcount_extract (sa, sb) _ W entry W2 hex
      have hpe2 := of_decide_eq_true (extractFirst_spec _ W entry W2 hex).1
      cases hold : alookup F (sa, m) with
      | none =>
        simp only [hold]
        have ih2 := ih W2 (ainsert F (sa, m) entry.buffer) O
        by_cases hm : m = sb
        · subst hm
          rw [fcount_ainsert_self] at ih2
          rw [if_pos ⟨hpe2.1, hpe2.2⟩] at hw
          rw [fcount_of_none _ _ hold]
          omega
        · rw [fcount_ainsert_ne _ _ _ _
            (fun hk => hm (congrArg Prod.snd hk))] at ih2
          rw [if_neg (fun hc => hm (hpe2.2.symm.trans hc.2))] at hw
          omega
      | some released =>
        simp only [hold]
        have ih2 := ih W2 (ainsert F (sa, m) entry.buffer)
          (ainsert O (sa, m, released) .client)
        rw [countRelEntries_cons]
        by_cases hm : m = sb
        · subst hm
          rw [if_pos rfl]
          rw [fcount_ainsert_self] at ih2
          rw [if_pos ⟨hpe2.1, hpe2.2⟩] at hw
          rw [fcount_of_some _ _ _ hold]
          omega
        · rw [if_neg hm]
          rw [fcount_ainsert_ne _ _ _ _
            (fun hk => hm (congrArg Prod.snd hk))] at ih2
          rw [if_neg (fun hc => hm (hpe2.2.symm.trans hc.2))] at hw
          omega

/-- The page flip loop does not touch the waiting and front counts of any
session other than the active one. -/
theorem claim_flip_preserve_ne (active sa : SessionId) (sb : MonitorId)
    (hne : active ≠ sa) (monitors : List MonitorId) :
    ∀ (W : List PendingFlip) (F : List ((SessionId × MonitorId) × BufferIndex))
      (O : List (SlotTriple × BufferOwner)),
      wcount (sa, sb) (claim_page_flip active monitors W F O).1 = wcount (sa, sb) W ∧
      fcount (sa, sb) (claim_page_flip active monitors W F O).2.1 =
        fcount (sa, sb) F := by
  induction monitors with
  | nil =>
    intro W F O
    simp [claim_page_flip]
  | cons m rest ih =>
    intro W F O
    unfold claim_page_flip
    cases hex : extractFirst (fun p =>
        decide (p.session_id = active ∧ p.monitor_id = m)) W with
    | none =>
      simp only [hex]
      exact ih W F O
    | some pr =>
      obtain ⟨entry, W2⟩ := pr
      simp only [hex]
      have hw := wcount_extract (sa, sb) _ W entry W2 hex
      have hpe2 := of_decide_eq_true (extractFirst_spec _ W entry W2 hex).1
      rw [if_neg (fun hc => hne (hpe2.1.symm.trans hc.1))] at hw
      have hkey : ((active, m) : SessionId × MonitorId) ≠ (sa, sb) :=
        fun hk => hne (congrArg Prod.fst hk)
      cases hold : alookup F (active, m) with
      | none =>
        simp only [hold]
        have ih2 := ih W2 (ainsert F (active, m) entry.buffer) O
        rw [fcount_ainsert_ne _ _ _ _ hkey] at ih2
        refine ⟨?_, ih2.2⟩
        rw [ih2.1, hw]
        omega
      | some released =>
        simp only [hold]
        have ih2 := ih W2 (ainsert F (active, m) entry.buffer)
          (ainsert O (active, m, released) .client)
        rw [fcount_ainsert_ne _ _ _ _ hkey] at ih2
        refine ⟨?_, ih2.2⟩
        rw [ih2.1, hw]
        omega

/-! ## PendingBound preservation along clean runs -/

/-- Purging a disconnected bound client keeps every remaining in-flight
request attached to a connected bound client. -/
theorem pendingBound_purge (s s2 : ShiftServer) (cid : ClientId) (sid : SessionId)
    (hconn : s2.connected_clients = aeraseAll s.connected_clients cid)
    (hpend : s2.pending_buffer_requests = s.pending_buffer_requests.filter
      (fun p => decide (p.client_id ≠ cid ∧ p.session_id ≠ sid)))
    (h : PendingBound s) : PendingBound s2 := by
  intro p hp
  rw [hpend, List.mem_filter] at hp
  obtain ⟨hmem, hpred⟩ := hp
  simp only [decide_eq_true_eq] at hpred
  obtain ⟨c, hcl, hsome⟩ := h p hmem
  refine ⟨c, ?_, hsome⟩
  rw [hconn, alookup_aeraseAll, if_neg (fun he => hpred.1 he.symm)]
  exact hcl

theorem pendingBound_disconnect (s : ShiftServer) (cid : ClientId)
    (h : PendingBound s) : PendingBound (s.disconnect_client cid).1 := by
  unfold ShiftServer.disconnect_client
  cases hc : alookup s.connected_clients cid with
  | none => simp only [hc]; exact h
  | some client =>
    simp only [hc]
    cases hcs : client.session_id with
    | none =>
      simp only [hcs]
      intro p hp
      have hmem : p ∈ s.pending_buffer_requests := hp
      obtain ⟨c, hcl, hsome⟩ := h p hmem
      have hne : ¬(cid = p.client_id) := by
        intro he
        rw [← he] at hcl
        rw [hc] at hcl
        injection hcl with hcc
        rw [← hcc, hcs] at hsome
        exact absurd hsome (by decide)
      refine ⟨c, ?_, hsome⟩
      show alookup (aeraseAll s.connected_clients cid) p.client_id = some c
      rw [alookup_aeraseAll, if_neg hne]
      exact hcl
    | some sid =>
      simp only [hcs]
      split
      · exact pendingBound_purge s _ cid sid rfl rfl h
      · exact pendingBound_purge s _ cid sid rfl rfl h

theorem pendingBound_handle_auth (s : ShiftServer) (cid : ClientId) (tok : Token)
    (h : PendingBound s) : PendingBound (s.handle_auth cid tok true).1 := by
  unfold ShiftServer.handle_auth
  cases hf : alookup s.pending_sessions tok with
  | none =>
    simp only [hf]
    cases hc : alookup s.connected_clients cid with
    | none => simp only [hc]; exact h
    | some c => simp only [hc]; exact h
  | some ps =>
    simp only [hf]
    cases hc : alookup s.connected_clients cid with
    | none => simp only [hc]; exact h
    | some client =>
      simp only [hc, if_true]
      have hbase : ∀ p ∈ s.pending_buffer_requests, ∃ c2,
          alookup (ainsert s.connected_clients cid
            { client with session_id := some ps.promote.id }) p.client_id = some c2 ∧
          c2.session_id.isSome = true := by
        intro p hp
        obtain ⟨c, hcl, hsome⟩ := h p hp
        by_cases he : cid = p.client_id
        · refine ⟨{ client with session_id := some ps.promote.id }, ?_, rfl⟩
          rw [alookup_ainsert, if_pos he]
        · refine ⟨c, ?_, hsome⟩
          rw [alookup_ainsert, if_neg he]
          exact hcl
      split
      · exact fun p hp => hbase p hp
      · exact fun p hp => hbase p hp

theorem pendingBound_handle_create_session (s : ShiftServer) (cid : ClientId)
    (req : SessionCreateReq) (tok : Token) (fid : SessionId)
    (h : PendingBound s) :
    PendingBound (s.handle_create_session cid req tok fid true).1 := by
  unfold ShiftServer.handle_create_session
  cases hc : alookup s.connected_clients cid with
  | none => simp only [hc]; exact h
  | some client =>
    simp only [hc]
    cases hs : client.session_id.bind (fun sid => alookup s.active_sessions sid) with
    | none => simp only [hs]; exact h
    | some cs =>
      simp only [hs]
      by_cases hrole : cs.role ≠ Role.admin
      · rw [if_pos hrole]; exact h
      · rw [if_neg hrole]; exact h

theorem pendingBound_handle_buffer_request (s : ShiftServer) (cid : ClientId)
    (mid : MonitorId) (buf : BufferIndex) (fence : Bool) (h : PendingBound s) :
    PendingBound (s.handle_buffer_request cid mid buf fence true).1 := by
  unfold ShiftServer.handle_buffer_request
  cases hc : alookup s.connected_clients cid with
  | none => simp only [hc]; exact h
  | some client =>
    simp only [hc]
    cases hs : client.session_id.bind (fun sid => alookup s.active_sessions sid) with
    | none => simp only [hs]; exact h
    | some cs =>
      simp only [hs]
      by_cases hown : (alookup s.buffer_ownership (cs.id, mid, buf)).getD .client ≠ .client
      · rw [if_pos hown]; exact h
      · rw [if_neg hown]
        by_cases hinf : (s.pending_buffer_requests.any fun p =>
            decide (p.session_id = cs.id ∧ p.monitor_id = mid ∧ p.buffer = buf)) = true
        · rw [if_pos hinf]; exact h
        · rw [if_neg (by simpa using hinf)]
          intro p hp
          have hp2 : p ∈ s.pending_buffer_requests ++ [⟨cid, cs.id, mid, buf⟩] := hp
          rw [List.mem_append] at hp2
          cases hp2 with
          | inl hmem => exact h p hmem
          | inr hone =>
            rw [List.mem_singleton] at hone
            subst hone
            refine ⟨client, hc, ?_⟩
            cases hcs : client.session_id with
            | none => rw [hcs] at hs; simp [Option.bind] at hs
            | some sid2 => rfl

theorem pendingBound_handle_framebuffer_link (s : ShiftServer) (cid : ClientId)
    (payload : FramebufferLinkPayload) (h : PendingBound s) :
    PendingBound (s.handle_framebuffer_link cid payload true).1 := by
  unfold ShiftServer.handle_framebuffer_link
  cases hc : alookup s.connected_clients cid with
  | none => simp only [hc]; exact h
  | some client =>
    simp only [hc]
    cases hcs : client.session_id with
    | none => simp only [hcs]; exact h
    | some sid =>
      simp only [hcs]
      cases hm : payload.monitor_id with
      | none => simp only [hm]; exact h
      | some mid =>
        simp only [hm]
        intro p hp
        have hp2 : p ∈ s.pending_buffer_requests.filter (fun p =>
            decide (¬(p.session_id = sid ∧ p.monitor_id = mid))) := hp
        rw [List.mem_filter] at hp2
        exact h p hp2.1

theorem pendingBound_handle_page_flip (s : ShiftServer) (monitors : List MonitorId)
    (ok : Bool) (h : PendingBound s) :
    PendingBound (s.handle_page_flip monitors ok).1 := by
  unfold ShiftServer.handle_page_flip
  by_cases hne : monitors = []
  · rw [if_pos hne]; exact h
  · rw [if_neg hne]
    cases hcur : s.current_session with
    | none => simp only [hcur]; exact h
    | some active =>
      simp only [hcur]
      cases hfind : ShiftServer.find_bound_client s.connected_clients active with
      | none => simp only [hfind]; exact h
      | some pr =>
        obtain ⟨cid2, c2⟩ := pr
        simp only [hfind]
        have hfold := foldl_page_flip_spec active monitors s []
        simp only [hfold, List.nil_append]
        by_cases hrel :
            (claim_page_flip active monitors s.waiting_flip s.front_buffers
              s.buffer_ownership).2.2.2 = []
        · rw [if_pos hrel]; exact h
        · rw [if_neg hrel]
          cases ok with
          | true => exact h
          | false => exact h

theorem pendingBound_handle_buffer_request_ack (s : ShiftServer) (sid : SessionId)
    (mid : MonitorId) (buf : BufferIndex) (h : PendingBound s) :
    PendingBound (s.handle_buffer_request_ack sid mid buf true).1 := by
  unfold ShiftServer.handle_buffer_request_ack
  cases hex : extractFirst (fun p =>
      decide (p.session_id = sid ∧ p.monitor_id = mid ∧
        p.buffer = buf)) s.pending_buffer_requests with
  | none => simp only [hex]; exact h
  | some pr =>
    obtain ⟨pending, rest⟩ := pr
    simp only [hex]
    have hrest : ∀ p ∈ rest, p ∈ s.pending_buffer_requests := fun p hp =>
      (extractFirst_spec _ _ _ _ hex).2.2.subset hp
    cases hcp : alookup s.connected_clients pending.client_id with
    | none =>
      simp only [hcp]
      intro p hp
      exact h p (hrest p hp)
    | some c2 =>
      simp only [hcp]
      intro p hp
      exact h p (hrest p hp)

theorem pendingBound_handle_buffer_request_rejected (s : ShiftServer)
    (sid : SessionId) (mid : MonitorId) (buf : BufferIndex) (reason : String)
    (h : PendingBound s) :
    PendingBound (s.handle_buffer_request_rejected sid mid buf reason).1 := by
  unfold ShiftServer.handle_buffer_request_rejected
  cases hex : extractFirst (fun p =>
      decide (p.session_id = sid ∧ p.monitor_id = mid ∧
        p.buffer = buf)) s.pending_buffer_requests with
  | none => simp only [hex]; exact h
  | some pr =>
    obtain ⟨pending, rest⟩ := pr
    simp only [hex]
    have hrest : ∀ p ∈ rest, p ∈ s.pending_buffer_requests := fun p hp =>
      (extractFirst_spec _ _ _ _ hex).2.2.subset hp
    cases hcp : alookup s.connected_clients pending.client_id with
    | none =>
      simp only [hcp]
      intro p hp
      exact h p (hrest p hp)
    | some c2 =>
      simp only [hcp]
      intro p hp
      exact h p (hrest p hp)

/-- One clean step preserves PendingBound. -/
theorem pendingBound_applyEv (sm : SessionId × MonitorId) (s : ShiftServer) (e : Ev)
    (hpb : PendingBound s) (hcl : CleanStep sm s e = true) :
    PendingBound (applyEv s e).1 := by
  cases e with
  | accept cid =>
    simp only [CleanStep] at hcl
    have hfresh : alookup s.connected_clients cid = none := of_decide_eq_true hcl
    intro p hp
    have hmem : p ∈ s.pending_buffer_requests := hp
    obtain ⟨c, hcl2, hsome⟩ := hpb p hmem
    refine ⟨c, ?_, hsome⟩
    show alookup (ainsert s.connected_clients cid ⟨none⟩) p.client_id = some c
    rw [alookup_ainsert, if_neg ?_]
    · exact hcl2
    · intro he
      rw [← he] at hcl2
      rw [hfresh] at hcl2
      exact Option.noConfusion hcl2
  | add_initial tok fid => exact fun p hp => hpb p hp
  | client cid msg ok =>
    simp only [CleanStep] at hcl
    rw [Bool.and_eq_true] at hcl
    obtain ⟨hok, hm⟩ := hcl
    subst hok
    cases msg with
    | shutdown => exact pendingBound_disconnect s cid hpb
    | auth tok => exact pendingBound_handle_auth s cid tok hpb
    | create_session req tok2 fid =>
      exact pendingBound_handle_create_session s cid req tok2 fid hpb
    | buffer_request mid buf fence =>
      exact pendingBound_handle_buffer_request s cid mid buf fence hpb
    | framebuffer_link payload =>
      exact pendingBound_handle_framebuffer_link s cid payload hpb
  | render ev ok =>
    simp only [CleanStep] at hcl
    rw [Bool.and_eq_true] at hcl
    obtain ⟨hok, hm⟩ := hcl
    subst hok
    cases ev with
    | started ms => exact fun p hp => hpb p hp
    | monitor_online m => exact fun p hp => hpb p hp
    | monitor_offline mid =>
      intro p hp
      have hp2 : p ∈ s.pending_buffer_requests.filter
          (fun p => decide (p.monitor_id ≠ mid)) := hp
      rw [List.mem_filter] at hp2
      exact hpb p hp2.1
    | fatal_error r => exact fun p hp => hpb p hp
    | page_flip ms => exact pendingBound_handle_page_flip s ms true hpb
    | buffer_request_ack sid mid buf =>
      exact pendingBound_handle_buffer_request_ack s sid mid buf hpb
    | buffer_request_rejected sid mid buf reason =>
      exact pendingBound_handle_buffer_request_rejected s sid mid buf reason hpb

/-! ## Per-handler frame facts for the counting argument -/

theorem countAckMsgs_single (m mid : MonitorId) (c : ClientId) (buf : BufferIndex) :
    countAckMsgs m [(c, .buffer_request_ack mid buf)] = if mid = m then 1 else 0 := by
  unfold countAckMsgs
  by_cases hm : mid = m
  · simp [List.filter_cons, hm]
  · simp [List.filter_cons, hm]

theorem countRelMsgs_single (m : MonitorId) (c : ClientId) (l : List BufferRelease) :
    countRelMsgs m [(c, .buffer_release l)] = countRelEntries m l := by
  unfold countRelMsgs
  simp

/-- The auth handler on a delivered reply never touches the waiting-flip list
or the front-buffer table. -/
theorem auth_wf (s : ShiftServer) (cid : ClientId) (tok : Token) :
    (s.handle_auth cid tok true).1.waiting_flip = s.waiting_flip ∧
    (s.handle_auth cid tok true).1.front_buffers = s.front_buffers := by
  unfold ShiftServer.handle_auth
  cases hf : alookup s.pending_sessions tok with
  | none =>
    simp only [hf]
    cases hc : alookup s.connected_clients cid with
    | none => simp [hc]
    | some c => simp [hc]
  | some ps =>
    simp only [hf]
    cases hc : alookup s.connected_clients cid with
    | none => simp [hc]
    | some client =>
      simp only [hc, if_true]
      split
      · exact ⟨rfl, rfl⟩
      · exact ⟨rfl, rfl⟩

/-- The create-session handler on a delivered reply never touches the
waiting-flip list or the front-buffer table. -/
theorem create_wf (s : ShiftServer) (cid : ClientId) (req : SessionCreateReq)
    (tok : Token) (fid : SessionId) :
    (s.handle_create_session cid req tok fid true).1.waiting_flip = s.waiting_flip ∧
    (s.handle_create_session cid req tok fid true).1.front_buffers =
      s.front_buffers := by
  unfold ShiftServer.handle_create_session
  cases hc : alookup s.connected_clients cid with
  | none => simp [hc]
  | some client =>
    simp only [hc]
    cases hs : client.session_id.bind (fun sid => alookup s.active_sessions sid) with
    | none => simp [hs]
    | some cs =>
      simp only [hs]
      split
      · exact ⟨rfl, rfl⟩
      · exact ⟨rfl, rfl⟩

/-- The buffer-request handler never touches the waiting-flip list or the
front-buffer table. -/
theorem br_wf (s : ShiftServer) (cid : ClientId) (mid : MonitorId)
    (buf : BufferIndex) (fence : Bool) :
    (s.handle_buffer_request cid mid buf fence true).1.waiting_flip =
      s.waiting_flip ∧
    (s.handle_buffer_request cid mid buf fence true).1.front_buffers =
      s.front_buffers := by
  unfold ShiftServer.handle_buffer_request
  cases hc : alookup s.connected_clients cid with
  | none => simp [hc]
  | some client =>
    simp only [hc]
    cases hs : client.session_id.bind (fun sid => alookup s.active_sessions sid) with
    | none => simp [hs]
    | some cs =>
      simp only [hs]
      split
      · exact ⟨rfl, rfl⟩
      · split
        · exact ⟨rfl, rfl⟩
        · exact ⟨rfl, rfl⟩

/-- The rejected-request handler never touches the waiting-flip list or the
front-buffer table. -/
theorem rejected_wf (s : ShiftServer) (sid : SessionId) (mid : MonitorId)
    (buf : BufferIndex) (reason : String) :
    (s.handle_buffer_request_rejected sid mid buf reason).1.waiting_flip =
      s.waiting_flip ∧
    (s.handle_buffer_request_rejected sid mid buf reason).1.front_buffers =
      s.front_buffers := by
  unfold ShiftServer.handle_buffer_request_rejected
  cases hex : extractFirst (fun p =>
      decide (p.session_id = sid ∧ p.monitor_id = mid ∧
        p.buffer = buf)) s.pending_buffer_requests with
  | none => simp [hex]
  | some pr =>
    obtain ⟨pending, rest⟩ := pr
    simp only [hex]
    cases hcp : alookup s.connected_clients pending.client_id with
    | none => simp [hcp]
    | some c2 => simp [hcp]

/-- Disconnecting a client not bound to the session sm.1 keeps the waiting
and front counts of sm. -/
theorem disconnect_counts (sa : SessionId) (sb : MonitorId) (s : ShiftServer)
    (cid : ClientId)
    (hnm : ∀ c, alookup s.connected_clients cid = some c →
      c.session_id ≠ some sa) :
    wcount (sa, sb) (s.disconnect_client cid).1.waiting_flip =
      wcount (sa, sb) s.waiting_flip ∧
    fcount (sa, sb) (s.disconnect_client cid).1.front_buffers =
      fcount (sa, sb) s.front_buffers := by
  unfold ShiftServer.disconnect_client
  cases hc : alookup s.connected_clients cid with
  | none => exact ⟨rfl, rfl⟩
  | some client =>
    simp only [hc]
    cases hcs : client.session_id with
    | none => simp [hcs]
    | some sid =>
      simp only [hcs]
      have hsid : sid ≠ sa := by
        have hne := hnm client hc
        rw [hcs] at hne
        exact fun he => hne (by rw [he])
      have hw : wcount (sa, sb) (s.waiting_flip.filter (fun p =>
          decide (p.session_id ≠ sid))) = wcount (sa, sb) s.waiting_flip :=
        wcount_filter (sa, sb) s.waiting_flip _
          (fun p h1 h2 => decide_eq_true (by rw [h1]; exact fun he => hsid he.symm))
      have hf : fcount (sa, sb) (s.front_buffers.filter (fun e =>
          decide (e.1.1 ≠ sid))) = fcount (sa, sb) s.front_buffers :=
        fcount_filter_key (sa, sb) s.front_buffers (fun k => decide (k.1 ≠ sid))
          (decide_eq_true (fun he => hsid he.symm))
      constructor
      · split
        · exact hw
        · exact hw
      · split
        · exact hf
        · exact hf

/-- Re-linking framebuffers for a pair other than sm keeps the waiting and
front counts of sm. -/
theorem fb_link_counts (sa : SessionId) (sb : MonitorId) (s : ShiftServer)
    (cid : ClientId) (payload : FramebufferLinkPayload)
    (hm : (match alookup s.connected_clients cid with
           | some c => decide (¬(c.session_id = some sa ∧
               payload.monitor_id = some sb))
           | none => true) = true) :
    wcount (sa, sb) (s.handle_framebuffer_link cid payload true).1.waiting_flip =
      wcount (sa, sb) s.waiting_flip ∧
    fcount (sa, sb) (s.handle_framebuffer_link cid payload true).1.front_buffers =
      fcount (sa, sb) s.front_buffers := by
  unfold ShiftServer.handle_framebuffer_link
  cases hc : alookup s.connected_clients cid with
  | none => simp [hc]
  | some client =>
    simp only [hc] at hm ⊢
    cases hcs : client.session_id with
    | none => simp [hcs]
    | some sid =>
      simp only [hcs]
      cases hpm : payload.monitor_id with
      | none => simp [hpm]
      | some mid =>
        simp only [hpm]
        rw [hcs, hpm] at hm
        have hm2 := of_decide_eq_true hm
        constructor
        · exact wcount_filter (sa, sb) s.waiting_flip _
            (fun p h1 h2 => decide_eq_true (fun hcon =>
              hm2 ⟨congrArg some (h1.symm.trans hcon.1).symm,
                congrArg some (h2.symm.trans hcon.2).symm⟩))
        · have hkey : ((sid, mid) : SessionId × MonitorId) ≠ (sa, sb) := by
            intro hk
            exact hm2 ⟨congrArg some (congrArg Prod.fst hk),
              congrArg some (congrArg Prod.snd hk)⟩
          show fcount (sa, sb) (aeraseAll s.front_buffers (sid, mid)) =
            fcount (sa, sb) s.front_buffers
          unfold fcount
          rw [alookup_aeraseAll, if_neg hkey]

/-- Taking a monitor other than sm.2 offline keeps the waiting and front
counts of sm. -/
theorem monitor_offline_counts (sa : SessionId) (sb : MonitorId) (s : ShiftServer)
    (mid : MonitorId) (hne : mid ≠ sb) :
    wcount (sa, sb) (s.handle_monitor_offline mid).1.waiting_flip =
      wcount (sa, sb) s.waiting_flip ∧
    fcount (sa, sb) (s.handle_monitor_offline mid).1.front_buffers =
      fcount (sa, sb) s.front_buffers := by
  constructor
  · exact wcount_filter (sa, sb) s.waiting_flip _
      (fun p h1 h2 => decide_eq_true (fun he => hne (h2.symm.trans he).symm))
  · exact fcount_filter_key (sa, sb) s.front_buffers
      (fun k => decide (k.2 ≠ mid)) (decide_eq_true (fun he => hne he.symm))

/-- One acknowledged buffer request adds exactly its ack message and its
waiting-flip entry for the pair it names. -/
theorem step_ack_conservation (sa : SessionId) (sb : MonitorId) (s : ShiftServer)
    (sid : SessionId) (mid : MonitorId) (buf : BufferIndex)
    (hpb : PendingBound s) :
    stepAck (sa, sb) s (.render (.buffer_request_ack sid mid buf) true) +
      wcount (sa, sb) s.waiting_flip + fcount (sa, sb) s.front_buffers =
    wcount (sa, sb) (s.handle_buffer_request_ack sid mid buf true).1.waiting_flip +
      fcount (sa, sb) (s.handle_buffer_request_ack sid mid buf true).1.front_buffers := by
  cases hex : extractFirst (fun p =>
      decide (p.session_id = sid ∧ p.monitor_id = mid ∧
        p.buffer = buf)) s.pending_buffer_requests with
  | none =>
    have happ : s.handle_buffer_request_ack sid mid buf true = (s, noOut) := by
      unfold ShiftServer.handle_buffer_request_ack
      simp only [hex]
    have hstep : stepAck (sa, sb) s
        (.render (.buffer_request_ack sid mid buf) true) = 0 := by
      have h2 : (applyEv s (.render (.buffer_request_ack sid mid buf) true)).2 =
          noOut := by
        show (s.handle_buffer_request_ack sid mid buf true).2 = noOut
        rw [happ]
      show (if sid = sa then countAckMsgs sb (applyEv s
          (.render (.buffer_request_ack sid mid buf) true)).2.to_clients
        else 0) = 0
      rw [h2]
      simp [noOut, countAckMsgs]
    rw [hstep, happ]
    show 0 + wcount (sa, sb) s.waiting_flip + fcount (sa, sb) s.front_buffers =
      wcount (sa, sb) s.waiting_flip + fcount (sa, sb) s.front_buffers
    omega
  | some pr =>
    obtain ⟨pending, rest⟩ := pr
    have hmem := (extractFirst_spec _ _ _ _ hex).2.1
    obtain ⟨c, hcp, hsome⟩ := hpb pending hmem
    have happ : s.handle_buffer_request_ack sid mid buf true =
        ({ s with pending_buffer_requests := rest, buffer_ownership := ainsert s.buffer_ownership (sid, mid, buf) .shift, waiting_flip := s.waiting_flip ++ [⟨sid, mid, buf⟩], swap_buffers_received := saturating_add_u64 s.swap_buffers_received 1 },
         ⟨[(pending.client_id, .buffer_request_ack mid buf)], []⟩) := by
      unfold ShiftServer.handle_buffer_request_ack
      simp only [hex, hcp, if_true]
    have hstep : stepAck (sa, sb) s
        (.render (.buffer_request_ack sid mid buf) true) =
        if sid = sa then (if mid = sb then 1 else 0) else 0 := by
      have h2 : (applyEv s (.render (.buffer_request_ack sid mid buf) true)).2 =
          ⟨[(pending.client_id, .buffer_request_ack mid buf)], []⟩ := by
        show (s.handle_buffer_request_ack sid mid buf true).2 = _
        rw [happ]
      show (if sid = sa then countAckMsgs sb (applyEv s
          (.render (.buffer_request_ack sid mid buf) true)).2.to_clients
        else 0) = if sid = sa then (if mid = sb then 1 else 0) else 0
      rw [h2]
      by_cases hsid : sid = sa
      · rw [if_pos hsid, if_pos hsid]
        exact countAckMsgs_single sb mid pending.client_id buf
      · rw [if_neg hsid, if_neg hsid]
    rw [hstep, happ]
    show (if sid = sa then (if mid = sb then 1 else 0) else 0) +
        wcount (sa, sb) s.waiting_flip + fcount (sa, sb) s.front_buffers =
      wcount (sa, sb) (s.waiting_flip ++ [⟨sid, mid, buf⟩]) +
        fcount (sa, sb) s.front_buffers
    rw [wcount_append]
    by_cases hsid : sid = sa
    · by_cases hmid : mid = sb
      · rw [if_pos hsid, if_pos hmid, if_pos ⟨hsid, hmid⟩]
        omega
      · rw [if_pos hsid, if_neg hmid, if_neg (fun hc2 => hmid hc2.2)]
        omega
    · rw [if_neg hsid, if_neg (fun hc2 => hsid hc2.1)]
      omega

/-- A delivered page flip releases exactly the front buffers it replaces:
the release records it emits for the pair sm balance the drop in the waiting
and front counts of sm. -/
theorem step_flip_conservation (sa : SessionId) (sb : MonitorId) (s : ShiftServer)
    (monitors : List MonitorId) :
    wcount (sa, sb) s.waiting_flip + fcount (sa, sb) s.front_buffers =
      stepRel (sa, sb) s (.render (.page_flip monitors) true) +
      wcount (sa, sb) (s.handle_page_flip monitors true).1.waiting_flip +
      fcount (sa, sb) (s.handle_page_flip monitors true).1.front_buffers := by
  by_cases hne : monitors = []
  · have happ : s.handle_page_flip monitors true = (s, noOut) := by
      unfold ShiftServer.handle_page_flip
      rw [if_pos hne]
    have hstep : stepRel (sa, sb) s (.render (.page_flip monitors) true) = 0 := by
      have h2 : (applyEv s (.render (.page_flip monitors) true)).2 = noOut := by
        show (s.handle_page_flip monitors true).2 = noOut
        rw [happ]
      show (if s.current_session = some sa then countRelMsgs sb (applyEv s
          (.render (.page_flip monitors) true)).2.to_clients else 0) = 0
      rw [h2]
      simp [noOut, countRelMsgs]
    rw [hstep, happ]
    show wcount (sa, sb) s.waiting_flip + fcount (sa, sb) s.front_buffers =
      0 + wcount (sa, sb) s.waiting_flip + fcount (sa, sb) s.front_buffers
    omega
  · cases hcur : s.current_session with
    | none =>
      have happ : s.handle_page_flip monitors true = (s, noOut) := by
        unfold ShiftServer.handle_page_flip
        rw [if_neg hne]
        simp only [hcur]
      have hstep : stepRel (sa, sb) s (.render (.page_flip monitors) true) = 0 := by
        show (if s.current_session = some sa then countRelMsgs sb (applyEv s
            (.render (.page_flip monitors) true)).2.to_clients else 0) = 0
        rw [hcur, if_neg (fun h2 => Option.noConfusion h2)]
      rw [hstep, happ]
      show wcount (sa, sb) s.waiting_flip + fcount (sa, sb) s.front_buffers =
        0 + wcount (sa, sb) s.waiting_flip + fcount (sa, sb) s.front_buffers
      omega
    | some active =>
      cases hfind : ShiftServer.find_bound_client s.connected_clients active with
      | none =>
        have happ : s.handle_page_flip monitors true = (s, noOut) := by
          unfold ShiftServer.handle_page_flip
          rw [if_neg hne]
          simp only [hcur, hfind]
        have hstep : stepRel (sa, sb) s
            (.render (.page_flip monitors) true) = 0 := by
          unfold stepRel
          have h2 : (applyEv s (.render (.page_flip monitors) true)).2 = noOut := by
            show (s.handle_page_flip monitors true).2 = noOut
            rw [happ]
          rw [h2]
          simp [noOut, countRelMsgs]
        rw [hstep, happ]
        show wcount (sa, sb) s.waiting_flip + fcount (sa, sb) s.front_buffers =
          0 + wcount (sa, sb) s.waiting_flip + fcount (sa, sb) s.front_buffers
        omega
      | some pr =>
        obtain ⟨cid2, c2⟩ := pr
        have hfold := foldl_page_flip_spec active monitors s []
        by_cases hrel : (claim_page_flip active monitors s.waiting_flip
            s.front_buffers s.buffer_ownership).2.2.2 = []
        · have happ : s.handle_page_flip monitors true =
              ({ s with waiting_flip := (claim_page_flip active monitors s.waiting_flip s.front_buffers s.buffer_ownership).1, front_buffers := (claim_page_flip active monitors s.waiting_flip s.front_buffers s.buffer_ownership).2.1, buffer_ownership := (claim_page_flip active monitors s.waiting_flip s.front_buffers s.buffer_ownership).2.2.1 },
               noOut) := by
            unfold ShiftServer.handle_page_flip
            rw [if_neg hne]
            simp only [hcur, hfind, hfold, List.nil_append]
            rw [if_pos hrel]
          have hstep : stepRel (sa, sb) s
              (.render (.page_flip monitors) true) = 0 := by
            have h2 : (applyEv s (.render (.page_flip monitors) true)).2 =
                noOut := by
              show (s.handle_page_flip monitors true).2 = noOut
              rw [happ]
            show (if s.current_session = some sa then countRelMsgs sb (applyEv s
                (.render (.page_flip monitors) true)).2.to_clients else 0) = 0
            rw [h2]
            simp [noOut, countRelMsgs]
          rw [hstep, happ]
          show wcount (sa, sb) s.waiting_flip + fcount (sa, sb) s.front_buffers =
            0 + wcount (sa, sb) (claim_page_flip active monitors s.waiting_flip
                s.front_buffers s.buffer_ownership).1 +
              fcount (sa, sb) (claim_page_flip active monitors s.waiting_flip
                s.front_buffers s.buffer_ownership).2.1
          by_cases hact : active = sa
          · subst hact
            have hm := claim_flip_meas_eq active sb monitors s.waiting_flip
              s.front_buffers s.buffer_ownership
            rw [hrel] at hm
            rw [show countRelEntries sb ([] : List BufferRelease) = 0 from rfl] at hm
            omega
          · obtain ⟨hm1, hm2⟩ := claim_flip_preserve_ne active sa sb hact monitors
              s.waiting_flip s.front_buffers s.buffer_ownership
            omega
        · have happ : s.handle_page_flip monitors true =
              ({ s with waiting_flip := (claim_page_flip active monitors s.waiting_flip s.front_buffers s.buffer_ownership).1, front_buffers := (claim_page_flip active monitors s.waiting_flip s.front_buffers s.buffer_ownership).2.1, buffer_ownership := (claim_page_flip active monitors s.waiting_flip s.front_buffers s.buffer_ownership).2.2.1, frame_done_emitted := saturating_add_u64 s.frame_done_emitted (claim_page_flip active monitors s.waiting_flip s.front_buffers s.buffer_ownership).2.2.2.length },
               ⟨[(cid2, .buffer_release (claim_page_flip active monitors s.waiting_flip s.front_buffers s.buffer_ownership).2.2.2)], []⟩) := by
            unfold ShiftServer.handle_page_flip
            rw [if_neg hne]
            simp only [hcur, hfind, hfold, List.nil_append]
            rw [if_neg hrel, if_pos trivial]
          have hstep : stepRel (sa, sb) s
              (.render (.page_flip monitors) true) =
              if s.current_session = some sa then
                countRelEntries sb (claim_page_flip active monitors s.waiting_flip
                  s.front_buffers s.buffer_ownership).2.2.2
              else 0 := by
            have h2 : (applyEv s (.render (.page_flip monitors) true)).2 =
                ⟨[(cid2, .buffer_release (claim_page_flip active monitors
                  s.waiting_flip s.front_buffers s.buffer_ownership).2.2.2)], []⟩ := by
              show (s.handle_page_flip monitors true).2 = _
              rw [happ]
            show (if s.current_session = some sa then countRelMsgs sb (applyEv s
                (.render (.page_flip monitors) true)).2.to_clients else 0) =
              if s.current_session = some sa then
                countRelEntries sb (claim_page_flip active monitors s.waiting_flip
                  s.front_buffers s.buffer_ownership).2.2.2
              else 0
            rw [h2]
            by_cases hcs : s.current_session = some sa
            · rw [if_pos hcs, if_pos hcs]
              exact countRelMsgs_single sb cid2 _
            · rw [if_neg hcs, if_neg hcs]
          rw [hstep, happ]
          show wcount (sa, sb) s.waiting_flip + fcount (sa, sb) s.front_buffers =
            (if s.current_session = some sa then
              countRelEntries sb (claim_page_flip active monitors s.waiting_flip
                s.front_buffers s.buffer_ownership).2.2.2
             else 0) +
              wcount (sa, sb) (claim_page_flip active monitors s.waiting_flip
                s.front_buffers s.buffer_ownership).1 +
              fcount (sa, sb) (claim_page_flip active monitors s.waiting_flip
                s.front_buffers s.buffer_ownership).2.1
          by_cases hact : active = sa
          · subst hact
            rw [if_pos hcur]
            have hm := claim_flip_meas_eq active sb monitors s.waiting_flip
              s.front_buffers s.buffer_ownership
            omega
          · rw [if_neg (fun hcs => hact (Option.some.inj (hcur.symm.trans hcs)))]
            obtain ⟨hm1, hm2⟩ := claim_flip_preserve_ne active sa sb hact monitors
              s.waiting_flip s.front_buffers s.buffer_ownership
            omega

/-- One clean step preserves the balance: acks emitted for sm plus the prior
pipeline measure equal releases emitted for sm plus the new pipeline
measure. -/
theorem step_conservation (sm : SessionId × MonitorId) (s : ShiftServer) (e : Ev)
    (hpb : PendingBound s) (hcl : CleanStep sm s e = true) :
    stepAck sm s e + waitingCount sm s + frontCount sm s =
      stepRel sm s e + waitingCount sm (applyEv s e).1 +
        frontCount sm (applyEv s e).1 := by
  obtain ⟨sa, sb⟩ := sm
  cases e with
  | accept cid => rfl
  | add_initial tok fid => rfl
  | client cid msg ok =>
    simp only [CleanStep] at hcl
    rw [Bool.and_eq_true] at hcl
    obtain ⟨hok, hm⟩ := hcl
    subst hok
    cases msg with
    | shutdown =>
      have hnm : ∀ c, alookup s.connected_clients cid = some c →
          c.session_id ≠ some sa := by
        intro c hc
        rw [hc] at hm
        exact of_decide_eq_true hm
      obtain ⟨h1, h2⟩ := disconnect_counts sa sb s cid hnm
      show (0 : Nat) + wcount (sa, sb) s.waiting_flip +
          fcount (sa, sb) s.front_buffers =
        0 + wcount (sa, sb) (s.disconnect_client cid).1.waiting_flip +
          fcount (sa, sb) (s.disconnect_client cid).1.front_buffers
      rw [h1, h2]
    | auth tok =>
      obtain ⟨h1, h2⟩ := auth_wf s cid tok
      show (0 : Nat) + wcount (sa, sb) s.waiting_flip +
          fcount (sa, sb) s.front_buffers =
        0 + wcount (sa, sb) (s.handle_auth cid tok true).1.waiting_flip +
          fcount (sa, sb) (s.handle_auth cid tok true).1.front_buffers
      rw [h1, h2]
    | create_session req tok2 fid =>
      obtain ⟨h1, h2⟩ := create_wf s cid req tok2 fid
      show (0 : Nat) + wcount (sa, sb) s.waiting_flip +
          fcount (sa, sb) s.front_buffers =
        0 + wcount (sa, sb)
            (s.handle_create_session cid req tok2 fid true).1.waiting_flip +
          fcount (sa, sb)
            (s.handle_create_session cid req tok2 fid true).1.front_buffers
      rw [h1, h2]
    | buffer_request mid buf fence =>
      obtain ⟨h1, h2⟩ := br_wf s cid mid buf fence
      show (0 : Nat) + wcount (sa, sb) s.waiting_flip +
          fcount (sa, sb) s.front_buffers =
        0 + wcount (sa, sb)
            (s.handle_buffer_request cid mid buf fence true).1.waiting_flip +
          fcount (sa, sb)
            (s.handle_buffer_request cid mid buf fence true).1.front_buffers
      rw [h1, h2]
    | framebuffer_link payload =>
      obtain ⟨h1, h2⟩ := fb_link_counts sa sb s cid payload hm
      show (0 : Nat) + wcount (sa, sb) s.waiting_flip +
          fcount (sa, sb) s.front_buffers =
        0 + wcount (sa, sb)
            (s.handle_framebuffer_link cid payload true).1.waiting_flip +
          fcount (sa, sb)
            (s.handle_framebuffer_link cid payload true).1.front_buffers
      rw [h1, h2]
  | render ev ok =>
    simp only [CleanStep] at hcl
    rw [Bool.and_eq_true] at hcl
    obtain ⟨hok, hm⟩ := hcl
    subst hok
    cases ev with
    | started ms => rfl
    | monitor_online m => rfl
    | fatal_error r => rfl
    | monitor_offline mid =>
      have hne : mid ≠ sb := of_decide_eq_true hm
      obtain ⟨h1, h2⟩ := monitor_offline_counts sa sb s mid hne
      show (0 : Nat) + wcount (sa, sb) s.waiting_flip +
          fcount (sa, sb) s.front_buffers =
        0 + wcount (sa, sb) (s.handle_monitor_offline mid).1.waiting_flip +
          fcount (sa, sb) (s.handle_monitor_offline mid).1.front_buffers
      rw [h1, h2]
    | page_flip ms =>
      have hflip := step_flip_conservation sa sb s ms
      show stepAck (sa, sb) s (.render (.page_flip ms) true) +
          wcount (sa, sb) s.waiting_flip + fcount (sa, sb) s.front_buffers =
        stepRel (sa, sb) s (.render (.page_flip ms) true) +
          wcount (sa, sb) (s.handle_page_flip ms true).1.waiting_flip +
          fcount (sa, sb) (s.handle_page_flip ms true).1.front_buffers
      have hz : stepAck (sa, sb) s (.render (.page_flip ms) true) = 0 := rfl
      rw [hz]
      omega
    | buffer_request_ack sid mid buf =>
      have hack := step_ack_conservation sa sb s sid mid buf hpb
      show stepAck (sa, sb) s (.render (.buffer_request_ack sid mid buf) true) +
          wcount (sa, sb) s.waiting_flip + fcount (sa, sb) s.front_buffers =
        stepRel (sa, sb) s (.render (.buffer_request_ack sid mid buf) true) +
          wcount (sa, sb)
            (s.handle_buffer_request_ack sid mid buf true).1.waiting_flip +
          fcount (sa, sb)
            (s.handle_buffer_request_ack sid mid buf true).1.front_buffers
      have hz : stepRel (sa, sb) s
          (.render (.buffer_request_ack sid mid buf) true) = 0 := rfl
      rw [hz]
      omega
    | buffer_request_rejected sid mid buf reason =>
      obtain ⟨h1, h2⟩ := rejected_wf s sid mid buf reason
      show (0 : Nat) + wcount (sa, sb) s.waiting_flip +
          fcount (sa, sb) s.front_buffers =
        0 + wcount (sa, sb)
            (s.handle_buffer_request_rejected sid mid buf reason).1.waiting_flip +
          fcount (sa, sb)
            (s.handle_buffer_request_rejected sid mid buf reason).1.front_buffers
      rw [h1, h2]

/-- Along a clean run, acks emitted for sm balance releases plus the live
pipeline entries for sm. -/
theorem run_conservation (sm : SessionId × MonitorId) :
    ∀ (es : List Ev) (s : ShiftServer), PendingBound s → CleanRun sm s es = true →
      ackCount sm s es + waitingCount sm s + frontCount sm s =
        relCount sm s es + waitingCount sm (runEvents s es) +
          frontCount sm (runEvents s es) := by
  intro es
  induction es with
  | nil => intro s hpb hcr; rfl
  | cons e rest ih =>
    intro s hpb hcr
    simp only [CleanRun] at hcr
    rw [Bool.and_eq_true] at hcr
    obtain ⟨h1, h2⟩ := hcr
    have hstep := step_conservation sm s e hpb h1
    have hrec := ih (applyEv s e).1 (pendingBound_applyEv sm s e hpb h1) h2
    show stepAck sm s e + ackCount sm (applyEv s e).1 rest +
        waitingCount sm s + frontCount sm s =
      stepRel sm s e + relCount sm (applyEv s e).1 rest +
        waitingCount sm (runEvents (applyEv s e).1 rest) +
        frontCount sm (runEvents (applyEv s e).1 rest)
    omega

theorem bufferindex_nodup_length_le_two (l : List BufferIndex) (h : l.Nodup) :
    l.length ≤ 2 := by
  cases l with
  | nil => simp
  | cons a t =>
    cases t with
    | nil => simp
    | cons b u =>
      cases u with
      | nil => simp
      | cons c v =>
        exfalso
        simp only [List.nodup_cons, List.mem_cons] at h
        obtain ⟨ha, hb, _⟩ := h
        cases a <;> cases b <;> cases c <;> simp_all

theorem bufferindex_nodup_avoid_length_le_one (l : List BufferIndex)
    (h : l.Nodup) (v : BufferIndex) (hv : ∀ x ∈ l, x ≠ v) : l.length ≤ 1 := by
  cases l with
  | nil => simp
  | cons a t =>
    cases t with
    | nil => simp
    | cons b u =>
      exfalso
      simp only [List.nodup_cons, List.mem_cons] at h
      obtain ⟨ha, _⟩ := h
      have hva := hv a (by simp)
      have hvb := hv b (by simp)
      have hab : a ≠ b := fun he => ha (Or.inl he)
      cases a <;> cases b <;> cases v <;> simp_all

/-- Under the server invariant at most two buffers are in flight per
(session, monitor): the waiting entries hold pairwise distinct slots of a
two-slot space, and a front buffer excludes its own slot from waiting. -/
theorem mu_le_two (sm : SessionId × MonitorId) (s : ShiftServer)
    (h : ServerInv s) : waitingCount sm s + frontCount sm s ≤ 2 := by
  obtain ⟨sa, sb⟩ := sm
  have hsub : (s.waiting_flip.filter (fun p =>
      decide (p.session_id = sa ∧ p.monitor_id = sb))).Sublist s.waiting_flip :=
    List.filter_sublist _
  have hnd : ((s.waiting_flip.filter (fun p =>
      decide (p.session_id = sa ∧ p.monitor_id = sb))).map flipTriple).Nodup :=
    List.Nodup.sublist (hsub.map flipTriple) h.waiting_nodup
  have hmap : (s.waiting_flip.filter (fun p =>
      decide (p.session_id = sa ∧ p.monitor_id = sb))).map (fun p => p.buffer) =
      ((s.waiting_flip.filter (fun p =>
        decide (p.session_id = sa ∧ p.monitor_id = sb))).map flipTriple).map
        (fun t => t.2.2) := by
    rw [List.map_map]
    rfl
  have hbufs : ((s.waiting_flip.filter (fun p =>
      decide (p.session_id = sa ∧ p.monitor_id = sb))).map
      (fun p => p.buffer)).Nodup := by
    rw [hmap]
    refine List.Nodup.map_on ?_ hnd
    intro x hx y hy hxy
    obtain ⟨p, hp, rfl⟩ := List.mem_map.mp hx
    obtain ⟨q, hq, rfl⟩ := List.mem_map.mp hy
    rw [List.mem_filter] at hp hq
    have hp2 := of_decide_eq_true hp.2
    have hq2 := of_decide_eq_true hq.2
    have hb : p.buffer = q.buffer := hxy
    unfold flipTriple
    rw [hp2.1, hp2.2, hq2.1, hq2.2, hb]
  have hw : waitingCount (sa, sb) s = ((s.waiting_flip.filter (fun p =>
      decide (p.session_id = sa ∧ p.monitor_id = sb))).map
      (fun p => p.buffer)).length := (List.length_map _ _).symm
  cases hfb : alookup s.front_buffers (sa, sb) with
  | none =>
    have hf0 : frontCount (sa, sb) s = 0 := fcount_of_none (sa, sb) _ hfb
    have hle := bufferindex_nodup_length_le_two _ hbufs
    omega
  | some fb =>
    have hf1 : frontCount (sa, sb) s = 1 := fcount_of_some (sa, sb) _ fb hfb
    have havoid : ∀ x ∈ (s.waiting_flip.filter (fun p =>
        decide (p.session_id = sa ∧ p.monitor_id = sb))).map
        (fun p => p.buffer), x ≠ fb := by
      intro x hx
      obtain ⟨p, hp, rfl⟩ := List.mem_map.mp hx
      rw [List.mem_filter] at hp
      have hp2 := of_decide_eq_true hp.2
      have hnf := h.waiting_not_front p hp.1
      rw [hp2.1, hp2.2] at hnf
      intro he
      exact hnf (by rw [he]; exact hfb)
    have hle := bufferindex_nodup_avoid_length_le_one _ hbufs fb havoid
    omega

/-- Claim C3 as stated is false: in the standard double-buffer pipeline both
slots are acknowledged before any page flip, so the clean run c3_events emits
two BUFFER_REQUEST_ACK messages and zero BUFFER_RELEASE records for the pair
(0, 5), and the difference 2 is outside the claimed set \x7b0, 1\x7d. -/
theorem c3_counterexample :
    CleanRun (0, 5) ShiftServer.initial c3_events = true ∧
    ackCount (0, 5) ShiftServer.initial c3_events = 2 ∧
    relCount (0, 5) ShiftServer.initial c3_events = 0 := by
  refine ⟨by decide, by decide, by decide⟩

/-- Claim C3, amended: along any clean execution (every checked channel send
succeeds, accepted client ids are fresh, and no disconnect, framebuffer
re-link or monitor-offline purges buffer state for the pair sm), the number
of BUFFER_REQUEST_ACK messages emitted for sm equals the number of
BUFFER_RELEASE records emitted for sm plus the number of buffers still in the
pipeline (waiting for a flip or installed as front), and that number is at
most 2, so the difference lies in \x7b0, 1, 2\x7d rather than the claimed
\x7b0, 1\x7d. -/
theorem c3_ack_release_counting (sm : SessionId × MonitorId) (es : List Ev)
    (h : CleanRun sm ShiftServer.initial es = true) :
    ackCount sm ShiftServer.initial es =
      relCount sm ShiftServer.initial es +
        (waitingCount sm (runEvents ShiftServer.initial es) +
          frontCount sm (runEvents ShiftServer.initial es)) ∧
    waitingCount sm (runEvents ShiftServer.initial es) +
      frontCount sm (runEvents ShiftServer.initial es) ≤ 2 := by
  have hpb : PendingBound ShiftServer.initial := by
    intro p hp
    simp [ShiftServer.initial] at hp
  have hcons := run_conservation sm es ShiftServer.initial hpb h
  have hinv : ServerInv (runEvents ShiftServer.initial es) :=
    serverInv_runEvents es ShiftServer.initial serverInv_initial
  have hmu := mu_le_two sm _ hinv
  have h0w : waitingCount sm ShiftServer.initial = 0 := rfl
  have h0f : frontCount sm ShiftServer.initial = 0 := rfl
  exact ⟨by omega, hmu⟩

/-- Witness for c3_ack_release_counting on the clean double-buffer run. -/
theorem c3_ack_release_counting_witness :
    (ackCount (0, 5) ShiftServer.initial c3_events =
      relCount (0, 5) ShiftServer.initial c3_events +
        (waitingCount (0, 5) (runEvents ShiftServer.initial c3_events) +
          frontCount (0, 5) (runEvents ShiftServer.initial c3_events))) ∧
    waitingCount (0, 5) (runEvents ShiftServer.initial c3_events) +
      frontCount (0, 5) (runEvents ShiftServer.initial c3_events) ≤ 2 :=
  c3_ack_release_counting (0, 5) c3_events (by decide)

end Shift
